import Mathlib

/-!
Verification development for the dual-backend path-contract core of the
charmlibs repository (the `pathops` package).

The repository ships only the tests of `pathops` in-tree; the implementation
modules (`_local_path.py`, `_container_path.py`, `_functions.py`,
`_constants.py`) are not present.  Everything below is therefore a shallow
embedding modelled from the specification (spec.md §§3–8), with behavior
pinned, where the spec is silent or self-contradictory, by the functional
tests under `pathops/tests/functional/`.

The model: a filesystem is a finite association list from absolute segment
paths to nodes (files, directories, symlinks, sockets, FIFOs).  The local
backend implements each operation via "syscalls" returning errnos; the remote
backend implements the same operations by composing the remote channel's
primitives (push / pull / list / remove / make-directory / run), whose
failures arrive as free-text fault messages and are mapped back to the shared
error-kind taxonomy by the error classifier.
-/

set_option autoImplicit false

/-- Decidable equality of `Except` results, for evaluating concrete
operation outcomes. -/
instance {ε α : Type} [DecidableEq ε] [DecidableEq α] : DecidableEq (Except ε α) := fun a b =>
  match a, b with
  | .ok x, .ok y =>
    if h : x = y then .isTrue (by rw [h]) else .isFalse (fun hh => h (Except.ok.inj hh))
  | .error x, .error y =>
    if h : x = y then .isTrue (by rw [h]) else .isFalse (fun hh => h (Except.error.inj hh))
  | .ok _, .error _ => .isFalse (fun hh => Except.noConfusion hh)
  | .error _, .ok _ => .isFalse (fun hh => Except.noConfusion hh)

namespace Pathops

/-- Modelled from the spec (§3, "Error kind"): the shared failure taxonomy of
the missing `_errors` module; one member per backend-neutral error kind. -/
inductive ErrorKind where
  | NotFound
  | NotADirectory
  | IsADirectory
  | AlreadyExists
  | NotEmpty
  | PermissionDenied
  | UnknownPrincipal
  | EncodingFailure
  | Unsupported
  | Other (msg : String)
deriving DecidableEq, Repr

/-- Modelled from the spec (§4.4): a failed operation either carries one of
the shared error kinds, or is a glob pattern *format* error (a `ValueError`),
which sits outside the backend error-kind taxonomy. -/
inductive Failure where
  | kind (k : ErrorKind)
  | format
deriving DecidableEq, Repr

/-- Modelled from the spec (§4.1): the native error codes the local backend's
syscalls produce. -/
inductive Errno where
  | enoent
  | enotdir
  | eisdir
  | eexist
  | enotempty
  | eacces
deriving DecidableEq, Repr

/-- Modelled from the spec (§4.1): the local backend's direct translation of
native error codes into the shared taxonomy. -/
def errnoKind : Errno → ErrorKind
  | .enoent => .NotFound
  | .enotdir => .NotADirectory
  | .eisdir => .IsADirectory
  | .eexist => .AlreadyExists
  | .enotempty => .NotEmpty
  | .eacces => .PermissionDenied

/-- Modelled from the spec (§2, §4.3): the remote channel reports failures as
free-text fault messages; this is the fault text the modelled channel emits
for each failure condition. -/
def faultOf : Errno → String
  | .enoent => "no such file or directory"
  | .enotdir => "not a directory"
  | .eisdir => "is a directory"
  | .eexist => "file exists"
  | .enotempty => "directory not empty"
  | .eacces => "permission denied"

/-- Modelled from the spec (§4.3): the table of known remote fault signatures,
the single extension point for recognizing new fault strings. -/
def faultTable : List (String × ErrorKind) :=
  [ ("no such file or directory", .NotFound)
  , ("not a directory", .NotADirectory)
  , ("is a directory", .IsADirectory)
  , ("file exists", .AlreadyExists)
  , ("directory not empty", .NotEmpty)
  , ("permission denied", .PermissionDenied)
  , ("unknown user or group", .UnknownPrincipal)
  ]

/-- Modelled from the spec (§4.3): the pure error classifier
`classify(raw_failure) -> ErrorKind`; unrecognized fault text is surfaced as
`Other(message)` with the original message preserved. -/
def classify (msg : String) : ErrorKind :=
  match faultTable.lookup msg with
  | some k => k
  | none => .Other msg

/-- A path value: an immutable sequence of normalized segments (spec §3). -/
abbrev Path := List String

/-- Modelled from the spec (§3, "FileInfo"): per-entry metadata other than
kind/size — POSIX mode bits, owner, group, mtime. -/
structure FMeta where
  mode : Nat
  user : String
  group : String
  mtime : Nat
deriving DecidableEq, Repr

/-- The payload of one filesystem entry: regular file (with content bytes),
directory, symlink (with an absolute target), socket, or FIFO (spec §1, §3). -/
inductive NodeData where
  | file (content : List Nat)
  | dir
  | symlink (target : List String)
  | socket
  | fifo
deriving DecidableEq, Repr

/-- One filesystem entry: payload plus metadata. -/
structure Node where
  data : NodeData
  meta : FMeta
deriving DecidableEq, Repr

/-- The modelled filesystem: a finite association list from absolute paths to
nodes.  The root `[]` is an implicit directory and never stored. -/
abbrev FS := List (Path × Node)

/-- Modelled from the spec (§3, "FileInfo" kinds). -/
inductive FKind where
  | file
  | directory
  | symlink
  | socket
  | fifo
deriving DecidableEq, Repr

/-- Modelled from the spec (§3): backend-neutral metadata snapshot of one
filesystem entry, synthesized from a listing entry or a single-entry stat. -/
structure FileInfo where
  kind : FKind
  size : Nat
  permissions : Nat
  user : String
  group : String
  mtime : Nat
deriving DecidableEq, Repr

def kindOf : NodeData → FKind
  | .file _ => .file
  | .dir => .directory
  | .symlink _ => .symlink
  | .socket => .socket
  | .fifo => .fifo

def dataSize : NodeData → Nat
  | .file c => c.length
  | _ => 0

def infoOf (n : Node) : FileInfo :=
  ⟨kindOf n.data, dataSize n.data, n.meta.mode, n.meta.user, n.meta.group, n.meta.mtime⟩

/-- Modelled from the spec: default permission bits for file writes
(`_constants.DEFAULT_WRITE_MODE`, §9 "named constants"). -/
def DEFAULT_WRITE_MODE : Nat := 0o644

/-- Modelled from the spec: default permission bits for created directories. -/
def DEFAULT_MKDIR_MODE : Nat := 0o755

/-- Maximum symlink-chain length followed before a path is treated as
unresolvable. -/
def MAX_SYMLINK : Nat := 40

def rootMeta : FMeta := ⟨DEFAULT_MKDIR_MODE, "root", "root", 0⟩

def rootNode : Node := ⟨.dir, rootMeta⟩

/-- Look an exact path up in the filesystem without following a final
symlink; the root is an implicit directory. -/
def lookupSeg (fs : FS) (p : Path) : Option Node :=
  match p with
  | [] => some rootNode
  | _ =>
    match fs with
    | [] => none
    | e :: rest => if e.1 = p then some e.2 else lookupSeg rest p

/-- Resolve a path, following symlinks (with bounded fuel) until a
non-symlink node is reached; returns the resolved path and its node. -/
def followNode (fs : FS) : Nat → Path → Option (Path × Node)
  | 0, _ => none
  | fuel + 1, p =>
    match lookupSeg fs p with
    | none => none
    | some n =>
      match n.data with
      | .symlink t => followNode fs fuel t
      | _ => some (p, n)

/-- `childName p q = some s` iff `q = p ++ [s]`, i.e. `q` is a direct child
of `p` named `s`. -/
def childName (p q : Path) : Option String :=
  if q.take p.length = p then
    match q.drop p.length with
    | [s] => some s
    | _ => none
  else none

/-- The names of the direct children of directory `p`, in storage order. -/
def childNames (fs : FS) (p : Path) : List String :=
  fs.filterMap (fun e => childName p e.1)

/-- Remove the entry stored at exactly `p` (non-recursive). -/
def eraseNode (fs : FS) (p : Path) : FS :=
  fs.filter (fun e => decide (e.1 ≠ p))

/-- Store `node` at `p`, replacing any existing entry. -/
def insertNode (fs : FS) (p : Path) (node : Node) : FS :=
  (p, node) :: eraseNode fs p

def mkFileNode (content : List Nat) (mode : Nat) (u g : String) : Node :=
  ⟨.file content, ⟨mode, u, g, 0⟩⟩

def mkDirNode (mode : Nat) (u g : String) : Node :=
  ⟨.dir, ⟨mode, u, g, 0⟩⟩

/-- Modelled from the spec (§4.2, §6): the environment an operation runs
against — the container/host filesystem plus the identity database consulted
by ownership lookups (`run` identity lookup on the remote backend, `pwd`/`grp`
on the local one).  `users` maps each user name to its primary group. -/
structure World where
  fs : FS
  users : List (String × String)
  groups : List String
deriving Repr

def defaultUser : String := "root"

def defaultGroup : String := "root"

def lookupUser (w : World) (u : String) : Option String :=
  w.users.lookup u

def knownGroup (w : World) (g : String) : Bool :=
  w.groups.contains g

/-! ### Core filesystem semantics shared by the two backends

The local backend reaches these through syscalls (errnos); the remote channel
reaches them through its push/pull/list/remove primitives (fault strings).
-/

/-- Validate that the parent of `p` exists and is a directory; returns the
resolved parent path and the final component.  Writing to the root fails
`eisdir`. -/
def parentCheck (fs : FS) (p : Path) : Except Errno (Path × String) :=
  match p.getLast? with
  | none => .error .eisdir
  | some name =>
    match followNode fs MAX_SYMLINK p.dropLast with
    | none => .error .enoent
    | some (q, n) =>
      match n.data with
      | .dir => .ok (q, name)
      | _ => .error .enotdir

/-- Create or overwrite the entry `q ++ [name]`; an existing directory there
fails `eisdir`. -/
def writeEntry (fs : FS) (q : Path) (name : String) (node : Node) : Except Errno FS :=
  match lookupSeg fs (q ++ [name]) with
  | some n =>
    match n.data with
    | .dir => .error .eisdir
    | _ => .ok (insertNode fs (q ++ [name]) node)
  | none => .ok (insertNode fs (q ++ [name]) node)

/-- Read the content of the regular file at `p` (following symlinks).
Directories fail `eisdir`; sockets and FIFOs are not retrievable and are
reported as absent (spec §8 backend parity: both backends classify them
identically). -/
def pullCore (fs : FS) (p : Path) : Except Errno (List Nat) :=
  match followNode fs MAX_SYMLINK p with
  | none => .error .enoent
  | some (_, n) =>
    match n.data with
    | .file c => .ok c
    | .dir => .error .eisdir
    | _ => .error .enoent

/-- Non-recursive removal of the entry at `p`: a directory must be empty;
symlinks are removed themselves, never followed. -/
def removeCore (fs : FS) (p : Path) : Except Errno FS :=
  match p.getLast? with
  | none => .error .eacces
  | some _ =>
    match lookupSeg fs p with
    | none => .error .enoent
    | some n =>
      match n.data with
      | .dir =>
        if childNames fs p = [] then .ok (eraseNode fs p) else .error .enotempty
      | _ => .ok (eraseNode fs p)

/-- The list of proper non-root prefixes of `p`, shortest first. -/
def ancestorPrefixes (p : Path) : List Path :=
  (List.range p.length).map (fun i => p.take (i + 1))

/-- Create every missing directory among `ps` (used by `mkdir parents=true`);
an existing non-directory ancestor fails `enotdir`. -/
def createDirs (mode : Nat) (u g : String) : FS → List Path → Except Errno FS
  | fs, [] => .ok fs
  | fs, q :: rest =>
    match followNode fs MAX_SYMLINK q with
    | some (_, n) =>
      match n.data with
      | .dir => createDirs mode u g fs rest
      | _ => .error .enotdir
    | none =>
      match q.getLast? with
      | none => createDirs mode u g fs rest
      | some _ => createDirs mode u g (insertNode fs q (mkDirNode mode u g)) rest

/-- Create the directory `p`.  An existing entry (symlinks included, never
followed) fails `eexist`; a missing parent fails `enoent` unless `parents`
is set, in which case missing ancestors are created. -/
def mkdirCore (fs : FS) (p : Path) (parents : Bool) (mode : Nat) (u g : String) :
    Except Errno FS :=
  match p.getLast? with
  | none => .error .eexist
  | some name =>
    match lookupSeg fs p with
    | some _ => .error .eexist
    | none =>
      match followNode fs MAX_SYMLINK p.dropLast with
      | some (q, n) =>
        match n.data with
        | .dir => .ok (insertNode fs (q ++ [name]) (mkDirNode mode u g))
        | _ => .error .enotdir
      | none =>
        if parents then
          match createDirs mode u g fs (ancestorPrefixes p.dropLast) with
          | .error e => .error e
          | .ok fs' => .ok (insertNode fs' p (mkDirNode mode u g))
        else .error .enoent

/-! ### Text handling -/

/-- Modelled from the spec (§4.2): the configured text encoding, as a
concrete codec: single-byte characters below 128 encode; anything else is an
encoding failure. -/
def decodeBytes : List Nat → Option (List Char)
  | [] => some []
  | b :: rest =>
    if b < 128 then (decodeBytes rest).map (fun cs => Char.ofNat b :: cs)
    else none

/-- Encoding direction of the configured codec. -/
def encodeChars : List Char → Option (List Nat)
  | [] => some []
  | c :: rest =>
    if c.toNat < 128 then (encodeChars rest).map (fun bs => c.toNat :: bs)
    else none

/-- Modelled from the spec (§4.2): universal-newline translation applied by
`read_text` by default — `\r\n` and bare `\r` both become `\n`. -/
def univNewlines : List Char → List Char
  | [] => []
  | '\r' :: '\n' :: rest => '\n' :: univNewlines rest
  | '\r' :: rest => '\n' :: univNewlines rest
  | c :: rest => c :: univNewlines rest

/-! ### Ownership resolution -/

/-- Modelled from the spec (§8 "Ownership") and `LocalPath`'s behavior in
`TestWrite`: the local backend resolves a requested owner/group via the local
identity database; a missing user defaults to the current user, a missing
group to the user's primary group; unknown names raise a `LookupError`
(`UnknownPrincipal`). -/
def localOwnership (w : World) (user group : Option String) :
    Except ErrorKind (String × String) :=
  match user, group with
  | none, none => .ok (defaultUser, defaultGroup)
  | some u, none =>
    match lookupUser w u with
    | some pg => .ok (u, pg)
    | none => .error .UnknownPrincipal
  | none, some g =>
    if knownGroup w g then .ok (defaultUser, g) else .error .UnknownPrincipal
  | some u, some g =>
    match lookupUser w u with
    | some _ => if knownGroup w g then .ok (u, g) else .error .UnknownPrincipal
    | none => .error .UnknownPrincipal

/-- Modelled from the spec (§6 `run`): the remote channel's identity lookup,
run as a helper command inside the container; unknown principals come back as
a fault string. -/
def pebbleRunIdLookup (w : World) (u : String) (g : Option String) :
    Except String (String × String) :=
  match lookupUser w u with
  | none => .error "unknown user or group"
  | some pg =>
    match g with
    | none => .ok (u, pg)
    | some g' => if knownGroup w g' then .ok (u, g') else .error "unknown user or group"

/-- Modelled from the spec (§4.2): the remote backend resolves a non-default
owner via a `run` identity lookup before the push; requesting a group without
a user is intentionally unsupported and raises `UnknownPrincipal`. -/
def containerOwnership (w : World) (user group : Option String) :
    Except ErrorKind (String × String) :=
  match user, group with
  | none, none => .ok (defaultUser, defaultGroup)
  | none, some _ => .error .UnknownPrincipal
  | some u, g =>
    match pebbleRunIdLookup w u g with
    | .error msg => .error (classify msg)
    | .ok r => .ok r

/-! ### The remote channel's primitives (spec §6)

All primitives fail with free-text fault messages, never native error types;
the remote backend classifies them (spec §4.3).
-/

/-- Modelled from the spec (§6 `pull`). -/
def pebblePull (fs : FS) (p : Path) : Except String (List Nat) :=
  match pullCore fs p with
  | .ok c => .ok c
  | .error e => .error (faultOf e)

/-- Modelled from the spec (§4.2, §6): the stat-equivalent single-entry query
producing a `FileInfo`. -/
def pebbleStat (fs : FS) (p : Path) (follow : Bool) : Except String FileInfo :=
  if follow then
    match followNode fs MAX_SYMLINK p with
    | none => .error (faultOf .enoent)
    | some (_, n) => .ok (infoOf n)
  else
    match lookupSeg fs p with
    | none => .error (faultOf .enoent)
    | some n => .ok (infoOf n)

/-- Modelled from the spec (§6 `list`): listing a directory yields one entry
per child; listing a non-directory yields a one-entry listing describing the
target itself (spec §4.4 step 4). -/
def pebbleList (fs : FS) (p : Path) : Except String (List (Path × FileInfo)) :=
  match followNode fs MAX_SYMLINK p with
  | none => .error (faultOf .enoent)
  | some (q, n) =>
    match n.data with
    | .dir => .ok (fs.filterMap (fun e =>
        (childName q e.1).map (fun name => (p ++ [name], infoOf e.2))))
    | _ => .ok [(p, infoOf n)]

/-- Modelled from the spec (§6 `push`): one call creating the file with the
requested permission bits and (already-resolved) ownership. -/
def pebblePush (fs : FS) (p : Path) (node : Node) : Except String FS :=
  match parentCheck fs p with
  | .error e => .error (faultOf e)
  | .ok (q, name) =>
    match writeEntry fs q name node with
    | .error e => .error (faultOf e)
    | .ok fs' => .ok fs'

/-- Modelled from the spec (§6 `remove`): non-recursive removal. -/
def pebbleRemove (fs : FS) (p : Path) : Except String FS :=
  match removeCore fs p with
  | .error e => .error (faultOf e)
  | .ok fs' => .ok fs'

/-- Modelled from the spec (§6 `make_directory`). -/
def pebbleMakeDir (fs : FS) (p : Path) (parents : Bool) (mode : Nat) (u g : String) :
    Except String FS :=
  match mkdirCore fs p parents mode u g with
  | .error e => .error (faultOf e)
  | .ok fs' => .ok fs'

/-! ### The local backend (`LocalPath`, spec §4.1)

Every operation is a direct local call whose native error code is translated
by `errnoKind`.
-/

/-- Modelled from the spec: `LocalPath.exists` — absence is `false`, never an
error. -/
def localExists (fs : FS) (p : Path) : Bool :=
  (followNode fs MAX_SYMLINK p).isSome

def localIsDir (fs : FS) (p : Path) : Bool :=
  match followNode fs MAX_SYMLINK p with
  | some (_, n) => match n.data with | .dir => true | _ => false
  | none => false

def localIsFile (fs : FS) (p : Path) : Bool :=
  match followNode fs MAX_SYMLINK p with
  | some (_, n) => match n.data with | .file _ => true | _ => false
  | none => false

def localIsSymlink (fs : FS) (p : Path) : Bool :=
  match lookupSeg fs p with
  | some n => match n.data with | .symlink _ => true | _ => false
  | none => false

def localIsSocket (fs : FS) (p : Path) : Bool :=
  match followNode fs MAX_SYMLINK p with
  | some (_, n) => match n.data with | .socket => true | _ => false
  | none => false

def localIsFifo (fs : FS) (p : Path) : Bool :=
  match followNode fs MAX_SYMLINK p with
  | some (_, n) => match n.data with | .fifo => true | _ => false
  | none => false

/-- Modelled from the spec: the single-entry stat query of `_get_fileinfo`
on the local backend. -/
def localStat (fs : FS) (p : Path) (follow : Bool) : Except Failure FileInfo :=
  if follow then
    match followNode fs MAX_SYMLINK p with
    | none => .error (.kind (errnoKind .enoent))
    | some (_, n) => .ok (infoOf n)
  else
    match lookupSeg fs p with
    | none => .error (.kind (errnoKind .enoent))
    | some n => .ok (infoOf n)

/-- Modelled from the spec: `LocalPath.iterdir` — one listing call; children
are reported under the requested (unresolved) path. -/
def localIterdir (fs : FS) (p : Path) : Except Failure (List Path) :=
  match followNode fs MAX_SYMLINK p with
  | none => .error (.kind (errnoKind .enoent))
  | some (q, n) =>
    match n.data with
    | .dir => .ok ((childNames fs q).map (fun name => p ++ [name]))
    | _ => .error (.kind (errnoKind .enotdir))

/-- Modelled from the spec: `LocalPath.read_bytes`. -/
def localReadBytes (fs : FS) (p : Path) : Except Failure (List Nat) :=
  match pullCore fs p with
  | .ok c => .ok c
  | .error e => .error (.kind (errnoKind e))

/-- Modelled from the spec: `LocalPath.read_text` — decode with the
configured encoding, then universal-newline translation unless disabled.
Decoding failures raise `EncodingFailure`. -/
def localReadText (fs : FS) (p : Path) (translate : Bool) : Except Failure (List Char) :=
  match localReadBytes fs p with
  | .error e => .error e
  | .ok bs =>
    match decodeBytes bs with
    | none => .error (.kind .EncodingFailure)
    | some cs => .ok (if translate then univNewlines cs else cs)

/-- Modelled from the spec: `LocalPath.owner`. -/
def localOwner (fs : FS) (p : Path) : Except Failure String :=
  match localStat fs p true with
  | .error e => .error e
  | .ok i => .ok i.user

/-- Modelled from the spec: `LocalPath.group`. -/
def localGroup (fs : FS) (p : Path) : Except Failure String :=
  match localStat fs p true with
  | .error e => .error e
  | .ok i => .ok i.group

/-- Modelled from the spec (§4.1, §8): `LocalPath.write_bytes` — the parent
is validated by the underlying open call, the requested ownership is resolved
against the local identity database, and the file is created with the
requested permission bits (default `DEFAULT_WRITE_MODE`). -/
def localWriteBytes (w : World) (p : Path) (content : List Nat) (mode : Option Nat)
    (user group : Option String) : Except Failure FS :=
  match parentCheck w.fs p with
  | .error e => .error (.kind (errnoKind e))
  | .ok (q, name) =>
    match localOwnership w user group with
    | .error k => .error (.kind k)
    | .ok (u, g) =>
      match writeEntry w.fs q name (mkFileNode content (mode.getD DEFAULT_WRITE_MODE) u g) with
      | .error e => .error (.kind (errnoKind e))
      | .ok fs' => .ok fs'

/-- Modelled from the spec: `LocalPath.write_text` — parent validation, then
ownership resolution, then encoding with the configured codec, then the
write. -/
def localWriteText (w : World) (p : Path) (text : List Char) (mode : Option Nat)
    (user group : Option String) : Except Failure FS :=
  match parentCheck w.fs p with
  | .error e => .error (.kind (errnoKind e))
  | .ok (q, name) =>
    match localOwnership w user group with
    | .error k => .error (.kind k)
    | .ok (u, g) =>
      match encodeChars text with
      | none => .error (.kind .EncodingFailure)
      | some bs =>
        match writeEntry w.fs q name (mkFileNode bs (mode.getD DEFAULT_WRITE_MODE) u g) with
        | .error e => .error (.kind (errnoKind e))
        | .ok fs' => .ok fs'

/-- Modelled from the spec (§8 "mkdir semantics"): `LocalPath.mkdir` with
`parents` and `exist_ok`; `exist_ok` tolerates an existing directory only. -/
def localMkdir (w : World) (p : Path) (parents existOk : Bool)
    (user group : Option String) : Except Failure FS :=
  match localOwnership w user group with
  | .error k => .error (.kind k)
  | .ok (u, g) =>
    match mkdirCore w.fs p parents DEFAULT_MKDIR_MODE u g with
    | .ok fs' => .ok fs'
    | .error .eexist =>
      if existOk then
        if localIsDir w.fs p then .ok w.fs else .error (.kind .AlreadyExists)
      else .error (.kind .AlreadyExists)
    | .error e => .error (.kind (errnoKind e))

/-- Modelled from the spec (§4.2 `rmdir`): one removal restricted to empty
directories; `NotADirectory` on a file or symlink-to-directory (symlinks are
never followed for removal); `NotEmpty` if children exist. -/
def localRmdir (fs : FS) (p : Path) : Except Failure FS :=
  match p.getLast? with
  | none => .error (.kind (errnoKind .eacces))
  | some _ =>
    match lookupSeg fs p with
    | none => .error (.kind (errnoKind .enoent))
    | some n =>
      match n.data with
      | .dir =>
        match removeCore fs p with
        | .ok fs' => .ok fs'
        | .error e => .error (.kind (errnoKind e))
      | _ => .error (.kind (errnoKind .enotdir))

/-- Modelled from the spec (§4.2 `unlink`): `missing_ok` suppresses
`NotFound`; a real directory fails `IsADirectory`; symlinks-to-directory are
unlinked, not recursed. -/
def localUnlink (fs : FS) (p : Path) (missingOk : Bool) : Except Failure FS :=
  match p.getLast? with
  | none => .error (.kind (errnoKind .eisdir))
  | some _ =>
    match lookupSeg fs p with
    | none => if missingOk then .ok fs else .error (.kind (errnoKind .enoent))
    | some n =>
      match n.data with
      | .dir => .error (.kind (errnoKind .eisdir))
      | _ =>
        match removeCore fs p with
        | .ok fs' => .ok fs'
        | .error e => .error (.kind (errnoKind e))

/-! ### The remote backend (`ContainerPath`, spec §4.2)

Each operation composes the channel primitives; every fault string is mapped
to the shared taxonomy by `classify` at the backend boundary.
-/

/-- Modelled from the spec (§4.2): `ContainerPath.exists` via the
stat-equivalent query; absence is reported as `false`, not an error. -/
def containerExists (fs : FS) (p : Path) : Bool :=
  match pebbleStat fs p true with
  | .ok _ => true
  | .error _ => false

def containerIsDir (fs : FS) (p : Path) : Bool :=
  match pebbleStat fs p true with
  | .ok i => i.kind == FKind.directory
  | .error _ => false

def containerIsFile (fs : FS) (p : Path) : Bool :=
  match pebbleStat fs p true with
  | .ok i => i.kind == FKind.file
  | .error _ => false

def containerIsSymlink (fs : FS) (p : Path) : Bool :=
  match pebbleStat fs p false with
  | .ok i => i.kind == FKind.symlink
  | .error _ => false

def containerIsSocket (fs : FS) (p : Path) : Bool :=
  match pebbleStat fs p true with
  | .ok i => i.kind == FKind.socket
  | .error _ => false

def containerIsFifo (fs : FS) (p : Path) : Bool :=
  match pebbleStat fs p true with
  | .ok i => i.kind == FKind.fifo
  | .error _ => false

/-- Modelled from the spec: the single-entry stat query of `_get_fileinfo`
on the remote backend, classified at the boundary. -/
def containerStat (fs : FS) (p : Path) (follow : Bool) : Except Failure FileInfo :=
  match pebbleStat fs p follow with
  | .error msg => .error (.kind (classify msg))
  | .ok i => .ok i

/-- Modelled from the spec (§4.2 `iterdir`): one `list` call; a one-entry
listing describing the target itself means the target is not a directory. -/
def containerIterdir (fs : FS) (p : Path) : Except Failure (List Path) :=
  match pebbleList fs p with
  | .error msg => .error (.kind (classify msg))
  | .ok entries =>
    match entries with
    | [(q, i)] =>
      if q = p ∧ i.kind ≠ FKind.directory then .error (.kind .NotADirectory)
      else .ok (entries.map Prod.fst)
    | _ => .ok (entries.map Prod.fst)

/-- Modelled from the spec (§4.2 `read_bytes`): one `pull` call. -/
def containerReadBytes (fs : FS) (p : Path) : Except Failure (List Nat) :=
  match pebblePull fs p with
  | .error msg => .error (.kind (classify msg))
  | .ok c => .ok c

/-- Modelled from the spec (§4.2 `read_text`): one `pull`, decode with the
configured encoding (failures raise `EncodingFailure`, never silently
corrupt), universal-newline translation unless disabled. -/
def containerReadText (fs : FS) (p : Path) (translate : Bool) : Except Failure (List Char) :=
  match containerReadBytes fs p with
  | .error e => .error e
  | .ok bs =>
    match decodeBytes bs with
    | none => .error (.kind .EncodingFailure)
    | some cs => .ok (if translate then univNewlines cs else cs)

/-- Modelled from the spec (§4.2 `owner`): read from the `FileInfo` query. -/
def containerOwner (fs : FS) (p : Path) : Except Failure String :=
  match containerStat fs p true with
  | .error e => .error e
  | .ok i => .ok i.user

/-- Modelled from the spec (§4.2 `group`): read from the `FileInfo` query. -/
def containerGroup (fs : FS) (p : Path) : Except Failure String :=
  match containerStat fs p true with
  | .error e => .error e
  | .ok i => .ok i.group

/-- Modelled from the spec (§4.2 `write_bytes`): first validates the parent
exists and is a directory (same classification as local), resolves any
requested ownership via the `run` identity lookup (group-without-user raises
`UnknownPrincipal`), then issues one `push` with the requested permission
bits. -/
def containerWriteBytes (w : World) (p : Path) (content : List Nat) (mode : Option Nat)
    (user group : Option String) : Except Failure FS :=
  match p.getLast? with
  | none => .error (.kind .IsADirectory)
  | some _ =>
    match pebbleStat w.fs p.dropLast true with
    | .error msg => .error (.kind (classify msg))
    | .ok i =>
      if i.kind ≠ FKind.directory then .error (.kind .NotADirectory)
      else
        match containerOwnership w user group with
        | .error k => .error (.kind k)
        | .ok (u, g) =>
          match pebblePush w.fs p (mkFileNode content (mode.getD DEFAULT_WRITE_MODE) u g) with
          | .error msg => .error (.kind (classify msg))
          | .ok fs' => .ok fs'

/-- Modelled from the spec (§4.2 `write_text`): parent validation, ownership
resolution, then encoding and one `push`. -/
def containerWriteText (w : World) (p : Path) (text : List Char) (mode : Option Nat)
    (user group : Option String) : Except Failure FS :=
  match p.getLast? with
  | none => .error (.kind .IsADirectory)
  | some _ =>
    match pebbleStat w.fs p.dropLast true with
    | .error msg => .error (.kind (classify msg))
    | .ok i =>
      if i.kind ≠ FKind.directory then .error (.kind .NotADirectory)
      else
        match containerOwnership w user group with
        | .error k => .error (.kind k)
        | .ok (u, g) =>
          match encodeChars text with
          | none => .error (.kind .EncodingFailure)
          | some bs =>
            match pebblePush w.fs p (mkFileNode bs (mode.getD DEFAULT_WRITE_MODE) u g) with
            | .error msg => .error (.kind (classify msg))
            | .ok fs' => .ok fs'

/-- Modelled from the spec (§4.2 `mkdir`): ownership resolution via `run`
(group-without-user raises `UnknownPrincipal`), then one directory-creating
push; `exist_ok` on an existing directory is a no-op, on an existing
non-directory still fails `AlreadyExists`. -/
def containerMkdir (w : World) (p : Path) (parents existOk : Bool)
    (user group : Option String) : Except Failure FS :=
  match containerOwnership w user group with
  | .error k => .error (.kind k)
  | .ok (u, g) =>
    match pebbleMakeDir w.fs p parents DEFAULT_MKDIR_MODE u g with
    | .ok fs' => .ok fs'
    | .error msg =>
      match classify msg with
      | .AlreadyExists =>
        if existOk then
          if containerIsDir w.fs p then .ok w.fs else .error (.kind .AlreadyExists)
        else .error (.kind .AlreadyExists)
      | k => .error (.kind k)

/-- Modelled from the spec (§4.2 `rmdir`): check the entry's own kind with
the no-follow stat (so a symlink-to-directory fails `NotADirectory`), then
one `remove` restricted to empty directories. -/
def containerRmdir (fs : FS) (p : Path) : Except Failure FS :=
  match p.getLast? with
  | none => .error (.kind .PermissionDenied)
  | some _ =>
    match pebbleStat fs p false with
    | .error msg => .error (.kind (classify msg))
    | .ok i =>
      if i.kind == FKind.directory then
        match pebbleRemove fs p with
        | .error msg => .error (.kind (classify msg))
        | .ok fs' => .ok fs'
      else .error (.kind .NotADirectory)

/-- Modelled from the spec (§4.2 `unlink`): one `remove`; `missing_ok`
suppresses `NotFound`; a real directory fails `IsADirectory` while a
symlink-to-directory is unlinked. -/
def containerUnlink (fs : FS) (p : Path) (missingOk : Bool) : Except Failure FS :=
  match p.getLast? with
  | none => .error (.kind .IsADirectory)
  | some _ =>
    match pebbleStat fs p false with
    | .error msg =>
      match classify msg with
      | .NotFound => if missingOk then .ok fs else .error (.kind .NotFound)
      | k => .error (.kind k)
    | .ok i =>
      if i.kind == FKind.directory then .error (.kind .IsADirectory)
      else
        match pebbleRemove fs p with
        | .error msg => .error (.kind (classify msg))
        | .ok fs' => .ok fs'

/-! ### The glob engine (spec §4.4)

Shared by both backends; shell-style wildcards (`*`, `?`, `[...]`),
case-sensitive, matched against directory listings.
-/

/-- One compiled token of a shell-style wildcard component. -/
inductive GTok where
  | lit (c : Char)
  | star
  | quest
  | cls (neg : Bool) (items : List (Char × Char))
deriving DecidableEq, Repr

/-- Parse the items of a `[...]` character class up to the closing `]`;
each item is a single character or an `a-b` range. -/
def takeClassItems : List Char → Option (List (Char × Char) × List Char)
  | [] => none
  | ']' :: rest => some ([], rest)
  | a :: '-' :: b :: rest =>
    if b = ']' then some ([(a, a), ('-', '-')], rest)
    else (takeClassItems rest).map (fun r => ((a, b) :: r.1, r.2))
  | a :: rest => (takeClassItems rest).map (fun r => ((a, a) :: r.1, r.2))

/-- Parse a full `[...]` class body (after the opening bracket), handling a
leading negation `!`. -/
def takeClass (l : List Char) : Option (Bool × List (Char × Char) × List Char) :=
  match l with
  | '!' :: rest => (takeClassItems rest).map (fun r => (true, r.1, r.2))
  | _ => (takeClassItems l).map (fun r => (false, r.1, r.2))

/-- Compile one wildcard component into tokens; `fuel` bounds the recursion
and is instantiated with the component length. -/
def compileGo : Nat → List Char → List GTok
  | 0, _ => []
  | _, [] => []
  | fuel + 1, '*' :: rest => .star :: compileGo fuel rest
  | fuel + 1, '?' :: rest => .quest :: compileGo fuel rest
  | fuel + 1, '[' :: rest =>
    match takeClass rest with
    | some (neg, items, r) => .cls neg items :: compileGo fuel r
    | none => .lit '[' :: compileGo fuel rest
  | fuel + 1, c :: rest => .lit c :: compileGo fuel rest

def compilePattern (l : List Char) : List GTok :=
  compileGo l.length l

def inClass (items : List (Char × Char)) (c : Char) : Bool :=
  items.any (fun r => r.1 ≤ c && c ≤ r.2)

/-- Shell-style wildcard matching of a compiled component against a name. -/
def matchToks : List GTok → List Char → Bool
  | [], [] => true
  | [], _ :: _ => false
  | .star :: ts, [] => matchToks ts []
  | .star :: ts, c :: cs => matchToks ts (c :: cs) || matchToks (.star :: ts) cs
  | .quest :: _, [] => false
  | .quest :: ts, _ :: cs => matchToks ts cs
  | .cls _ _ :: _, [] => false
  | .cls neg items :: ts, c :: cs => (inClass items c != neg) && matchToks ts cs
  | .lit _ :: _, [] => false
  | .lit a :: ts, c :: cs => (a == c) && matchToks ts cs

/-- Match a pattern component against an entry name (case-sensitive shell
wildcards, spec §4.4 step 3). -/
def matchComponent (comp : String) (name : String) : Bool :=
  matchToks (compilePattern comp.data) name.data

/-- `true` iff `l` contains `k` consecutive `*` characters starting at its
head. -/
def startsStars : Nat → List Char → Bool
  | 0, _ => true
  | _ + 1, [] => false
  | k + 1, c :: rest => (c == '*') && startsStars k rest

/-- `true` iff `l` contains `k` consecutive `*` characters anywhere. -/
def containsStars : Nat → List Char → Bool
  | _, [] => false
  | k, c :: rest => startsStars k (c :: rest) || containsStars k rest

/-- Modelled from the spec (§4.4 step 1) and `TestGlob.test_bad_asterix_pattern`:
a degenerate pattern component — empty, more than two consecutive `*`, or a
`**` that is not an entire component. -/
def badComponent (c : String) : Bool :=
  c = "" || containsStars 3 c.data || (containsStars 2 c.data && c ≠ "**")

/-- Split a pattern on `/` into its components. -/
def splitComps (acc : List Char) : List Char → List String
  | [] => [String.mk acc.reverse]
  | '/' :: rest => String.mk acc.reverse :: splitComps [] rest
  | c :: rest => splitComps (c :: acc) rest

/-- The components of a pattern. -/
def patternComps (pattern : String) : List String :=
  splitComps [] pattern.data

/-- Does the pattern denote an absolute path? -/
def isAbsolutePattern (pattern : String) : Bool :=
  match pattern.data with
  | '/' :: _ => true
  | _ => false

/-- Modelled from the spec (§4.4 steps 1–2) and `TestGlob`: reject the empty
pattern, the bare `.` pattern and degenerate components with a format error
(`ValueError`); an absolute pattern is rejected as `Unsupported`
(`NotImplementedError`, matching the local backend per
`TestGlob.test_not_implemented`). -/
def validatePattern (pattern : String) : Except Failure (List String) :=
  if pattern = "" then .error .format
  else if isAbsolutePattern pattern then .error (.kind .Unsupported)
  else if pattern = "." then .error .format
  else
    let comps := patternComps pattern
    if comps.any badComponent then .error .format else .ok comps

/-- Is this component the recursive wildcard? -/
def hasRecComponent (comps : List String) : Bool :=
  comps.contains "**"

/-- The listing the glob engine walks at `cur`: for a directory, its children
(reported under the unresolved path) with a directory flag; for a
non-directory start path, a one-entry listing of the path itself (spec §4.4
step 4). -/
def globListing (fs : FS) (cur : Path) : List (Path × Bool) :=
  match followNode fs MAX_SYMLINK cur with
  | none => []
  | some (q, n) =>
    match n.data with
    | .dir => (childNames fs q).map (fun name => (cur ++ [name], localIsDir fs (cur ++ [name])))
    | _ => [(cur, false)]

/-- The subdirectories the recursive wildcard descends into at `cur`. -/
def globSubdirs (fs : FS) (cur : Path) : List Path :=
  (globListing fs cur).filterMap (fun e => if e.2 then some e.1 else none)

def lastName (p : Path) : String :=
  (p.getLast?).getD ""

/-- Modelled from the spec (§4.4 step 3): walk the pattern components from
`cur`, matching each non-recursive component against the listing, recursing
into matching directories, pruning non-matches and non-directories with
remaining components; `**` matches zero or more directory levels. -/
def globGo (fs : FS) : Nat → Path → List String → List Path
  | _, cur, [] => [cur]
  | 0, _, _ => []
  | fuel + 1, cur, comp :: rest =>
    if comp = "**" then
      globGo fs fuel cur rest ++
        ((globSubdirs fs cur).map (fun q => globGo fs fuel q (comp :: rest))).flatten
    else
      ((globListing fs cur).map (fun e =>
        if matchComponent comp (lastName e.1) then
          match rest with
          | [] => [e.1]
          | _ => if e.2 then globGo fs fuel e.1 rest else []
        else [])).flatten

/-- Fuel for the engine: pattern length plus the deepest stored path. -/
def globFuel (fs : FS) (comps : List String) : Nat :=
  comps.length + (fs.map (fun e => e.1.length)).foldr max 0 + 1

/-- The shared engine applied to validated components. -/
def globEngine (fs : FS) (start : Path) (comps : List String) : List Path :=
  globGo fs (globFuel fs comps) start comps

/-- Modelled from the spec (§4.4): `LocalPath.glob` — validation, then the
engine; recursive components are accepted locally. -/
def localGlob (fs : FS) (start : Path) (pattern : String) : Except Failure (List Path) :=
  match validatePattern pattern with
  | .error e => .error e
  | .ok comps => .ok (globEngine fs start comps)

/-- Modelled from the spec (§4.2, §4.4): `ContainerPath.glob` — delegated to
the shared engine; a recursive component is explicitly unsupported and raises
`Unsupported` (`NotImplementedError`). -/
def containerGlob (fs : FS) (start : Path) (pattern : String) : Except Failure (List Path) :=
  match validatePattern pattern with
  | .error e => .error e
  | .ok comps =>
    if hasRecComponent comps then .error (.kind .Unsupported)
    else .ok (globEngine fs start comps)

/-! ### The path-contract surface (spec §2, §6)

One operation type covering the whole contract, with a runner per backend, so
backend parity can be stated as one theorem.
-/

/-- Modelled from the spec (§6 "Produced"): one invocation of a
path-contract operation with all its arguments. -/
inductive Op where
  | existsQ (p : Path)
  | isDirQ (p : Path)
  | isFileQ (p : Path)
  | isSymlinkQ (p : Path)
  | isSocketQ (p : Path)
  | isFifoQ (p : Path)
  | iterdirQ (p : Path)
  | globQ (p : Path) (pattern : String)
  | readBytesQ (p : Path)
  | readTextQ (p : Path) (translate : Bool)
  | ownerQ (p : Path)
  | groupQ (p : Path)
  | statQ (p : Path) (follow : Bool)
  | mkdirQ (p : Path) (parents existOk : Bool) (user group : Option String)
  | rmdirQ (p : Path)
  | unlinkQ (p : Path) (missingOk : Bool)
  | writeBytesQ (p : Path) (content : List Nat) (mode : Option Nat) (user group : Option String)
  | writeTextQ (p : Path) (text : List Char) (mode : Option Nat) (user group : Option String)
deriving DecidableEq, Repr

/-- A successful operation result. -/
inductive Value where
  | boolV (b : Bool)
  | bytesV (l : List Nat)
  | textV (l : List Char)
  | strV (s : String)
  | pathsV (l : List Path)
  | infoV (i : FileInfo)
  | unitV
deriving DecidableEq, Repr

/-- Run one path-contract operation on the local backend; the returned
filesystem reflects any mutation. -/
def runLocal (w : World) : Op → Except Failure (Value × FS)
  | .existsQ p => .ok (.boolV (localExists w.fs p), w.fs)
  | .isDirQ p => .ok (.boolV (localIsDir w.fs p), w.fs)
  | .isFileQ p => .ok (.boolV (localIsFile w.fs p), w.fs)
  | .isSymlinkQ p => .ok (.boolV (localIsSymlink w.fs p), w.fs)
  | .isSocketQ p => .ok (.boolV (localIsSocket w.fs p), w.fs)
  | .isFifoQ p => .ok (.boolV (localIsFifo w.fs p), w.fs)
  | .iterdirQ p => (localIterdir w.fs p).map (fun l => (.pathsV l, w.fs))
  | .globQ p pattern => (localGlob w.fs p pattern).map (fun l => (.pathsV l, w.fs))
  | .readBytesQ p => (localReadBytes w.fs p).map (fun l => (.bytesV l, w.fs))
  | .readTextQ p tr => (localReadText w.fs p tr).map (fun l => (.textV l, w.fs))
  | .ownerQ p => (localOwner w.fs p).map (fun s => (.strV s, w.fs))
  | .groupQ p => (localGroup w.fs p).map (fun s => (.strV s, w.fs))
  | .statQ p follow => (localStat w.fs p follow).map (fun i => (.infoV i, w.fs))
  | .mkdirQ p parents existOk u g => (localMkdir w p parents existOk u g).map (fun fs' => (.unitV, fs'))
  | .rmdirQ p => (localRmdir w.fs p).map (fun fs' => (.unitV, fs'))
  | .unlinkQ p missingOk => (localUnlink w.fs p missingOk).map (fun fs' => (.unitV, fs'))
  | .writeBytesQ p c m u g => (localWriteBytes w p c m u g).map (fun fs' => (.unitV, fs'))
  | .writeTextQ p t m u g => (localWriteText w p t m u g).map (fun fs' => (.unitV, fs'))

/-- Run one path-contract operation on the remote backend. -/
def runContainer (w : World) : Op → Except Failure (Value × FS)
  | .existsQ p => .ok (.boolV (containerExists w.fs p), w.fs)
  | .isDirQ p => .ok (.boolV (containerIsDir w.fs p), w.fs)
  | .isFileQ p => .ok (.boolV (containerIsFile w.fs p), w.fs)
  | .isSymlinkQ p => .ok (.boolV (containerIsSymlink w.fs p), w.fs)
  | .isSocketQ p => .ok (.boolV (containerIsSocket w.fs p), w.fs)
  | .isFifoQ p => .ok (.boolV (containerIsFifo w.fs p), w.fs)
  | .iterdirQ p => (containerIterdir w.fs p).map (fun l => (.pathsV l, w.fs))
  | .globQ p pattern => (containerGlob w.fs p pattern).map (fun l => (.pathsV l, w.fs))
  | .readBytesQ p => (containerReadBytes w.fs p).map (fun l => (.bytesV l, w.fs))
  | .readTextQ p tr => (containerReadText w.fs p tr).map (fun l => (.textV l, w.fs))
  | .ownerQ p => (containerOwner w.fs p).map (fun s => (.strV s, w.fs))
  | .groupQ p => (containerGroup w.fs p).map (fun s => (.strV s, w.fs))
  | .statQ p follow => (containerStat w.fs p follow).map (fun i => (.infoV i, w.fs))
  | .mkdirQ p parents existOk u g => (containerMkdir w p parents existOk u g).map (fun fs' => (.unitV, fs'))
  | .rmdirQ p => (containerRmdir w.fs p).map (fun fs' => (.unitV, fs'))
  | .unlinkQ p missingOk => (containerUnlink w.fs p missingOk).map (fun fs' => (.unitV, fs'))
  | .writeBytesQ p c m u g => (containerWriteBytes w p c m u g).map (fun fs' => (.unitV, fs'))
  | .writeTextQ p t m u g => (containerWriteText w p t m u g).map (fun fs' => (.unitV, fs'))

/-- Is this a glob invocation with a well-formed pattern containing the
recursive `**` component — the one operation the parity property excepts? -/
def isRecGlobOp : Op → Bool
  | .globQ _ pattern =>
    match validatePattern pattern with
    | .ok comps => hasRecComponent comps
    | .error _ => false
  | _ => false

/-- Is this a mutating operation requesting an owning group without a
user? -/
def isGroupOnlyOp : Op → Bool
  | .mkdirQ _ _ _ none (some _) => true
  | .writeBytesQ _ _ _ none (some _) => true
  | .writeTextQ _ _ _ none (some _) => true
  | _ => false

/-! ### The write-if-needed helper (spec §4.5) -/

/-- The two backends, for operations shared verbatim across them. -/
inductive Backend where
  | localB
  | containerB
deriving DecidableEq, Repr

def readBytesB : Backend → FS → Path → Except Failure (List Nat)
  | .localB => localReadBytes
  | .containerB => containerReadBytes

def statB : Backend → FS → Path → Except Failure FileInfo
  | .localB => fun fs p => localStat fs p true
  | .containerB => fun fs p => containerStat fs p true

def writeBytesB : Backend → World → Path → List Nat → Option Nat → Option String →
    Option String → Except Failure FS
  | .localB => localWriteBytes
  | .containerB => containerWriteBytes

/-- Modelled from the spec (§4.5): `ensure_contents` — read the current
content (if any), compare byte-for-byte and permission-for-permission against
the desired state; if identical perform no write and report `false`
("no change"); otherwise write content and permissions and report `true`
("changed"). -/
def ensureContents (b : Backend) (w : World) (p : Path) (content : List Nat) (mode : Nat) :
    Except Failure (Bool × FS) :=
  match readBytesB b w.fs p with
  | .error (.kind .NotFound) =>
    (writeBytesB b w p content (some mode) none none).map (fun fs' => (true, fs'))
  | .error e => .error e
  | .ok current =>
    match statB b w.fs p with
    | .error e => .error e
    | .ok i =>
      if current = content ∧ i.permissions = mode then .ok (false, w.fs)
      else (writeBytesB b w p content (some mode) none none).map (fun fs' => (true, fs'))

/-! ## Lemmas: fault classification and backend parity -/

/-- The classifier inverts the channel's fault strings back onto the same
kinds the local backend derives from errnos (spec §4.3, §7). -/
theorem classify_faultOf (e : Errno) : classify (faultOf e) = errnoKind e := by
  cases e <;> decide

theorem classify_unknown : classify "unknown user or group" = .UnknownPrincipal := by
  decide

theorem append_singleton_ne (p : Path) (name : String) : p ++ [name] ≠ p := by
  intro h
  have := congrArg List.length h
  simp at this

theorem kindOf_ne_directory {d : NodeData} (h : d ≠ .dir) : kindOf d ≠ FKind.directory := by
  cases d <;> simp [kindOf] at h ⊢

theorem exists_parity (fs : FS) (p : Path) : containerExists fs p = localExists fs p := by
  simp only [containerExists, localExists, pebbleStat, if_pos]
  cases followNode fs MAX_SYMLINK p <;> simp

theorem isDir_parity (fs : FS) (p : Path) : containerIsDir fs p = localIsDir fs p := by
  simp only [containerIsDir, localIsDir, pebbleStat, if_pos]
  cases h : followNode fs MAX_SYMLINK p with
  | none => simp
  | some qn => cases h2 : qn.2.data <;> simp [infoOf, kindOf, h2]

theorem isFile_parity (fs : FS) (p : Path) : containerIsFile fs p = localIsFile fs p := by
  simp only [containerIsFile, localIsFile, pebbleStat, if_pos]
  cases h : followNode fs MAX_SYMLINK p with
  | none => simp
  | some qn => cases h2 : qn.2.data <;> simp [infoOf, kindOf, h2]

theorem isSymlink_parity (fs : FS) (p : Path) :
    containerIsSymlink fs p = localIsSymlink fs p := by
  simp only [containerIsSymlink, localIsSymlink, pebbleStat, if_neg]
  cases h : lookupSeg fs p with
  | none => simp
  | some n => cases h2 : n.data <;> simp [infoOf, kindOf, h2]

theorem isSocket_parity (fs : FS) (p : Path) : containerIsSocket fs p = localIsSocket fs p := by
  simp only [containerIsSocket, localIsSocket, pebbleStat, if_pos]
  cases h : followNode fs MAX_SYMLINK p with
  | none => simp
  | some qn => cases h2 : qn.2.data <;> simp [infoOf, kindOf, h2]

theorem isFifo_parity (fs : FS) (p : Path) : containerIsFifo fs p = localIsFifo fs p := by
  simp only [containerIsFifo, localIsFifo, pebbleStat, if_pos]
  cases h : followNode fs MAX_SYMLINK p with
  | none => simp
  | some qn => cases h2 : qn.2.data <;> simp [infoOf, kindOf, h2]

theorem stat_parity (fs : FS) (p : Path) (follow : Bool) :
    containerStat fs p follow = localStat fs p follow := by
  simp only [containerStat, localStat, pebbleStat]
  cases follow <;> simp only [Bool.false_eq_true, if_false, if_pos]
  · cases lookupSeg fs p <;> simp [classify_faultOf]
  · cases followNode fs MAX_SYMLINK p <;> simp [classify_faultOf]

theorem owner_parity (fs : FS) (p : Path) : containerOwner fs p = localOwner fs p := by
  simp only [containerOwner, localOwner, stat_parity]

theorem group_parity (fs : FS) (p : Path) : containerGroup fs p = localGroup fs p := by
  simp only [containerGroup, localGroup, stat_parity]

theorem readBytes_parity (fs : FS) (p : Path) :
    containerReadBytes fs p = localReadBytes fs p := by
  simp only [containerReadBytes, localReadBytes, pebblePull]
  cases pullCore fs p <;> simp [classify_faultOf]

theorem readText_parity (fs : FS) (p : Path) (tr : Bool) :
    containerReadText fs p tr = localReadText fs p tr := by
  simp only [containerReadText, localReadText, readBytes_parity]

/-- Projecting the full listing entries to their paths gives the local
child-path listing. -/
theorem listing_fst (fs : FS) (q p : Path) :
    (fs.filterMap (fun e => (childName q e.1).map
      (fun name => (p ++ [name], infoOf e.2)))).map Prod.fst
    = (childNames fs q).map (fun name => p ++ [name]) := by
  induction fs with
  | nil => rfl
  | cons a as ih =>
    simp only [childNames] at ih ⊢
    cases h : childName q a.1 <;> simp [List.filterMap_cons, h, ih]

/-- Every entry the channel lists for a directory sits strictly below the
requested path. -/
theorem listing_mem_child (fs : FS) (q p : Path) (x : Path × FileInfo)
    (hx : x ∈ fs.filterMap (fun e => (childName q e.1).map
      (fun name => (p ++ [name], infoOf e.2)))) :
    ∃ name, x.1 = p ++ [name] := by
  rw [List.mem_filterMap] at hx
  obtain ⟨a, -, ha⟩ := hx
  cases h : childName q a.1 with
  | none => rw [h] at ha; simp at ha
  | some name =>
    rw [h] at ha
    simp only [Option.map_some'] at ha
    have hx := Option.some.inj ha
    exact ⟨name, by rw [← hx]⟩

theorem iterdir_parity (fs : FS) (p : Path) :
    containerIterdir fs p = localIterdir fs p := by
  simp only [containerIterdir, localIterdir, pebbleList]
  cases hf : followNode fs MAX_SYMLINK p with
  | none => simp [classify_faultOf]
  | some qn =>
    obtain ⟨q, n⟩ := qn
    cases hd : n.data with
    | dir =>
      simp only [hd]
      have hfst := listing_fst fs q p
      cases hEe : fs.filterMap (fun e => (childName q e.1).map
          (fun name => (p ++ [name], infoOf e.2))) with
      | nil =>
        rw [hEe] at hfst
        simp only [List.map_nil] at hfst
        simp [← hfst]
      | cons x rest =>
        rw [hEe] at hfst
        cases hR : rest with
        | nil =>
          obtain ⟨q', i⟩ := x
          have hmem : (q', i) ∈ fs.filterMap (fun e => (childName q e.1).map
              (fun name => (p ++ [name], infoOf e.2))) := by
            rw [hEe]; exact List.mem_cons_self _ _
          obtain ⟨name, hname⟩ := listing_mem_child fs q p (q', i) hmem
          subst hR
          simp only
          rw [if_neg]
          · rw [← hfst]
          · intro hcon
            exact append_singleton_ne p name (by rw [← hname, hcon.1])
        | cons y rest2 =>
          subst hR
          simp only
          rw [← hfst]
    | file c =>
      simp [hd, infoOf, kindOf, errnoKind]
    | symlink t =>
      simp [hd, infoOf, kindOf, errnoKind]
    | socket =>
      simp [hd, infoOf, kindOf, errnoKind]
    | fifo =>
      simp [hd, infoOf, kindOf, errnoKind]

theorem glob_parity (fs : FS) (start : Path) (pattern : String)
    (h : isRecGlobOp (.globQ start pattern) = false) :
    containerGlob fs start pattern = localGlob fs start pattern := by
  simp only [containerGlob, localGlob, isRecGlobOp] at h ⊢
  cases hv : validatePattern pattern with
  | error e => simp
  | ok comps =>
    rw [hv] at h
    simp only at h
    simp [h]

/-- Outside the group-without-user case the two backends resolve ownership
identically. -/
theorem ownership_parity (w : World) (user group : Option String)
    (h : user ≠ none ∨ group = none) :
    containerOwnership w user group = localOwnership w user group := by
  cases user with
  | none =>
    cases group with
    | none => rfl
    | some g => simp at h
  | some u =>
    cases group with
    | none =>
      simp only [containerOwnership, localOwnership, pebbleRunIdLookup]
      cases lookupUser w u <;> simp [classify_unknown]
    | some g =>
      simp only [containerOwnership, localOwnership, pebbleRunIdLookup]
      cases lookupUser w u with
      | none => simp [classify_unknown]
      | some pg =>
        cases hg : knownGroup w g <;> simp [hg, classify_unknown]

theorem rmdir_parity (fs : FS) (p : Path) : containerRmdir fs p = localRmdir fs p := by
  simp only [containerRmdir, localRmdir, pebbleStat, pebbleRemove, Bool.false_eq_true,
    if_false]
  cases hl : p.getLast? with
  | none => simp [errnoKind]
  | some name =>
    simp only
    cases hs : lookupSeg fs p with
    | none => simp [classify_faultOf, errnoKind]
    | some n =>
      simp only
      cases hd : n.data with
      | dir =>
        simp only [hd, infoOf, kindOf]
        rw [if_pos (show (FKind.directory == FKind.directory) = true from rfl)]
        cases hr : removeCore fs p <;> simp [hr, classify_faultOf]
      | file c => simp [hd, infoOf, kindOf, errnoKind]
      | symlink t => simp [hd, infoOf, kindOf, errnoKind]
      | socket => simp [hd, infoOf, kindOf, errnoKind]
      | fifo => simp [hd, infoOf, kindOf, errnoKind]

theorem unlink_parity (fs : FS) (p : Path) (missingOk : Bool) :
    containerUnlink fs p missingOk = localUnlink fs p missingOk := by
  simp only [containerUnlink, localUnlink, pebbleStat, pebbleRemove, Bool.false_eq_true,
    if_false]
  cases hl : p.getLast? with
  | none => simp [errnoKind]
  | some name =>
    simp only
    cases hs : lookupSeg fs p with
    | none =>
      simp only [classify_faultOf]
      cases missingOk <;> simp [errnoKind]
    | some n =>
      simp only
      cases hd : n.data with
      | dir => simp [hd, infoOf, kindOf, errnoKind]
      | file c =>
        simp only [hd, infoOf, kindOf]
        simp only [removeCore, hl, hs, hd]
        simp [classify_faultOf]
      | symlink t =>
        simp only [hd, infoOf, kindOf]
        simp only [removeCore, hl, hs, hd]
        simp [classify_faultOf]
      | socket =>
        simp only [hd, infoOf, kindOf]
        simp only [removeCore, hl, hs, hd]
        simp [classify_faultOf]
      | fifo =>
        simp only [hd, infoOf, kindOf]
        simp only [removeCore, hl, hs, hd]
        simp [classify_faultOf]

theorem mkdir_parity (w : World) (p : Path) (parents existOk : Bool)
    (user group : Option String) (h : user ≠ none ∨ group = none) :
    containerMkdir w p parents existOk user group = localMkdir w p parents existOk user group := by
  simp only [containerMkdir, localMkdir, pebbleMakeDir, ownership_parity w user group h]
  cases localOwnership w user group with
  | error k => rfl
  | ok ug =>
    obtain ⟨u, g⟩ := ug
    simp only
    cases hm : mkdirCore w.fs p parents DEFAULT_MKDIR_MODE u g with
    | ok fs' => simp
    | error e =>
      simp only [classify_faultOf]
      cases e <;> simp [errnoKind, isDir_parity]

theorem writeBytes_parity (w : World) (p : Path) (content : List Nat) (mode : Option Nat)
    (user group : Option String) (h : user ≠ none ∨ group = none) :
    containerWriteBytes w p content mode user group
      = localWriteBytes w p content mode user group := by
  simp only [containerWriteBytes, localWriteBytes, parentCheck, pebbleStat, pebblePush, if_pos]
  cases hl : p.getLast? with
  | none => simp [errnoKind]
  | some name =>
    simp only
    cases hf : followNode w.fs MAX_SYMLINK p.dropLast with
    | none => simp [classify_faultOf, errnoKind]
    | some qn =>
      obtain ⟨q, n⟩ := qn
      simp only
      cases hd : n.data with
      | dir =>
        simp only [hd, infoOf, kindOf]
        rw [if_neg (by simp)]
        rw [ownership_parity w user group h]
        cases localOwnership w user group with
        | error k => rfl
        | ok ug =>
          obtain ⟨u, g⟩ := ug
          simp only [parentCheck, hl, hf, hd]
          cases writeEntry w.fs q name
              (mkFileNode content (mode.getD DEFAULT_WRITE_MODE) u g) with
          | ok fs' => simp
          | error e => simp [classify_faultOf]
      | file c => simp [hd, infoOf, kindOf, errnoKind]
      | symlink t => simp [hd, infoOf, kindOf, errnoKind]
      | socket => simp [hd, infoOf, kindOf, errnoKind]
      | fifo => simp [hd, infoOf, kindOf, errnoKind]

theorem writeText_parity (w : World) (p : Path) (text : List Char) (mode : Option Nat)
    (user group : Option String) (h : user ≠ none ∨ group = none) :
    containerWriteText w p text mode user group
      = localWriteText w p text mode user group := by
  simp only [containerWriteText, localWriteText, parentCheck, pebbleStat, pebblePush, if_pos]
  cases hl : p.getLast? with
  | none => simp [errnoKind]
  | some name =>
    simp only
    cases hf : followNode w.fs MAX_SYMLINK p.dropLast with
    | none => simp [classify_faultOf, errnoKind]
    | some qn =>
      obtain ⟨q, n⟩ := qn
      simp only
      cases hd : n.data with
      | dir =>
        simp only [hd, infoOf, kindOf]
        rw [if_neg (by simp)]
        rw [ownership_parity w user group h]
        cases localOwnership w user group with
        | error k => rfl
        | ok ug =>
          obtain ⟨u, g⟩ := ug
          simp only
          cases encodeChars text with
          | none => rfl
          | some bs =>
            simp only [parentCheck, hl, hf, hd]
            cases writeEntry w.fs q name
                (mkFileNode bs (mode.getD DEFAULT_WRITE_MODE) u g) with
            | ok fs' => simp
            | error e => simp [classify_faultOf]
      | file c => simp [hd, infoOf, kindOf, errnoKind]
      | symlink t => simp [hd, infoOf, kindOf, errnoKind]
      | socket => simp [hd, infoOf, kindOf, errnoKind]
      | fifo => simp [hd, infoOf, kindOf, errnoKind]

/-- Backend parity over the whole contract: away from recursive glob and
group-without-user ownership requests, the remote backend computes exactly
the local backend's outcome — value, error kind and resulting filesystem. -/
theorem parity_main (w : World) (op : Op)
    (h1 : isRecGlobOp op = false) (h2 : isGroupOnlyOp op = false) :
    runContainer w op = runLocal w op := by
  cases op with
  | existsQ p => simp [runLocal, runContainer, exists_parity]
  | isDirQ p => simp [runLocal, runContainer, isDir_parity]
  | isFileQ p => simp [runLocal, runContainer, isFile_parity]
  | isSymlinkQ p => simp [runLocal, runContainer, isSymlink_parity]
  | isSocketQ p => simp [runLocal, runContainer, isSocket_parity]
  | isFifoQ p => simp [runLocal, runContainer, isFifo_parity]
  | iterdirQ p => simp [runLocal, runContainer, iterdir_parity]
  | globQ p pattern => simp [runLocal, runContainer, glob_parity w.fs p pattern h1]
  | readBytesQ p => simp [runLocal, runContainer, readBytes_parity]
  | readTextQ p tr => simp [runLocal, runContainer, readText_parity]
  | ownerQ p => simp [runLocal, runContainer, owner_parity]
  | groupQ p => simp [runLocal, runContainer, group_parity]
  | statQ p follow => simp [runLocal, runContainer, stat_parity]
  | mkdirQ p parents existOk user group =>
    have h : user ≠ none ∨ group = none := by
      cases user <;> cases group <;> simp_all [isGroupOnlyOp]
    simp [runLocal, runContainer, mkdir_parity w p parents existOk user group h]
  | rmdirQ p => simp [runLocal, runContainer, rmdir_parity]
  | unlinkQ p missingOk => simp [runLocal, runContainer, unlink_parity]
  | writeBytesQ p c m user group =>
    have h : user ≠ none ∨ group = none := by
      cases user <;> cases group <;> simp_all [isGroupOnlyOp]
    simp [runLocal, runContainer, writeBytes_parity w p c m user group h]
  | writeTextQ p t m user group =>
    have h : user ≠ none ∨ group = none := by
      cases user <;> cases group <;> simp_all [isGroupOnlyOp]
    simp [runLocal, runContainer, writeText_parity w p t m user group h]

/-- A well-formed glob pattern with a recursive component is rejected by the
remote backend as `Unsupported`. -/
theorem recglob_unsupported (w : World) (p : Path) (pattern : String)
    (h : isRecGlobOp (.globQ p pattern) = true) :
    runContainer w (.globQ p pattern) = .error (.kind .Unsupported) := by
  simp only [runContainer, containerGlob, isRecGlobOp] at h ⊢
  cases hv : validatePattern pattern with
  | error e => rw [hv] at h; simp at h
  | ok comps =>
    rw [hv] at h
    simp only at h
    simp [h, Except.map]

/-! ## Lemmas: evaluating the core on known entries -/

theorem dropLast_append_last {p : Path} {name : String} (hl : p.getLast? = some name) :
    p.dropLast ++ [name] = p :=
  List.dropLast_append_getLast? name (Option.mem_def.mpr hl)

theorem getLast?_ne_nil {p : Path} {name : String} (hl : p.getLast? = some name) : p ≠ [] := by
  intro hp
  rw [hp] at hl
  simp at hl

theorem lookupSeg_insertNode (fs : FS) (p : Path) (node : Node) (h : p ≠ []) :
    lookupSeg (insertNode fs p node) p = some node := by
  cases p with
  | nil => exact absurd rfl h
  | cons a as => simp [insertNode, lookupSeg]

theorem followNode_succ (fs : FS) (fuel : Nat) (p : Path) :
    followNode fs (fuel + 1) p =
      match lookupSeg fs p with
      | none => none
      | some n =>
        match n.data with
        | .symlink t => followNode fs fuel t
        | _ => some (p, n) := rfl

/-- Resolution is immediate on a non-symlink entry. -/
theorem followNode_of_file {fs : FS} {p : Path} {n : Node} {c : List Nat}
    (hn : lookupSeg fs p = some n) (hd : n.data = .file c) :
    followNode fs MAX_SYMLINK p = some (p, n) := by
  rw [show MAX_SYMLINK = 39 + 1 from rfl, followNode_succ, hn]
  simp [hd]

theorem pullCore_of_file {fs : FS} {p : Path} {n : Node} {c : List Nat}
    (hn : lookupSeg fs p = some n) (hd : n.data = .file c) :
    pullCore fs p = .ok c := by
  unfold pullCore
  rw [followNode_of_file hn hd]
  simp [hd]

theorem localReadBytes_of_file {fs : FS} {p : Path} {n : Node} {c : List Nat}
    (hn : lookupSeg fs p = some n) (hd : n.data = .file c) :
    localReadBytes fs p = .ok c := by
  unfold localReadBytes
  rw [pullCore_of_file hn hd]

theorem localStat_of_file {fs : FS} {p : Path} {n : Node} {c : List Nat}
    (hn : lookupSeg fs p = some n) (hd : n.data = .file c) :
    localStat fs p true = .ok (infoOf n) := by
  unfold localStat
  rw [if_pos rfl, followNode_of_file hn hd]

/-! ## Well-formedness and the uniqueness of listings -/

/-- Well-formedness of a modelled filesystem: each path is stored at most
once (spec §3, path values as keys). -/
def WF (fs : FS) : Prop := (fs.map Prod.fst).Nodup

instance (fs : FS) : Decidable (WF fs) := by unfold WF; infer_instance

theorem childName_eq {p q : Path} {s : String} (h : childName p q = some s) :
    q = p ++ [s] := by
  unfold childName at h
  by_cases hTake : q.take p.length = p
  · rw [if_pos hTake] at h
    cases hDrop : q.drop p.length with
    | nil => rw [hDrop] at h; cases h
    | cons a rest =>
      cases rest with
      | nil =>
        rw [hDrop] at h
        simp only [Option.some.injEq] at h
        have hq := List.take_append_drop p.length q
        rw [hTake, hDrop, h] at hq
        exact hq.symm
      | cons b r2 =>
        rw [hDrop] at h
        cases h
  · rw [if_neg hTake] at h
    cases h

theorem childNames_eq_keys (fs : FS) (q : Path) :
    childNames fs q = (fs.map Prod.fst).filterMap (childName q) := by
  rw [List.filterMap_map]
  rfl

theorem nodup_filterMap_childName (q : Path) (l : List Path) (h : l.Nodup) :
    (l.filterMap (childName q)).Nodup := by
  induction l with
  | nil => simp
  | cons a as ih =>
    rw [List.filterMap_cons]
    rw [List.nodup_cons] at h
    cases hc : childName q a with
    | none => exact ih h.2
    | some s =>
      rw [List.nodup_cons]
      refine ⟨?_, ih h.2⟩
      intro hmem
      rw [List.mem_filterMap] at hmem
      obtain ⟨b, hb, hbs⟩ := hmem
      have h1 := childName_eq hc
      have h2 := childName_eq hbs
      exact h.1 (by rw [h1, ← h2]; exact hb)

theorem childNames_nodup (fs : FS) (q : Path) (hwf : WF fs) :
    (childNames fs q).Nodup := by
  rw [childNames_eq_keys]
  exact nodup_filterMap_childName q _ hwf

/-! ## A concrete world for evaluating the claims -/

def sampleMeta : FMeta := ⟨DEFAULT_WRITE_MODE, "root", "root", 0⟩

/-- A small fixed tree: two files, a subdirectory with a file, a
symlink-to-directory and a socket. -/
def sampleFS : FS :=
  [ (["a.txt"], ⟨.file [1, 2], sampleMeta⟩)
  , (["b.txt"], ⟨.file [3], sampleMeta⟩)
  , (["sub"], ⟨.dir, ⟨DEFAULT_MKDIR_MODE, "root", "root", 0⟩⟩)
  , (["sub", "c.txt"], ⟨.file [4], sampleMeta⟩)
  , (["lnk"], ⟨.symlink ["sub"], sampleMeta⟩)
  , (["sock"], ⟨.socket, sampleMeta⟩)
  ]

def sampleWorld : World :=
  ⟨sampleFS, [("root", "root"), ("alice", "alice")], ["root", "alice", "staff"]⟩

/-! ## Claim theorems -/

/-- C9: for every well-formed directory, `iterdir` yields each entry exactly
once (no duplicates), and the remote backend produces exactly the same
listing as the local backend. -/
theorem C9_iterdir_no_duplicates (fs : FS) (p : Path) (l : List Path)
    (hwf : WF fs) (h : localIterdir fs p = .ok l) :
    l.Nodup ∧ containerIterdir fs p = .ok l := by
  refine ⟨?_, by rw [iterdir_parity]; exact h⟩
  unfold localIterdir at h
  cases hf : followNode fs MAX_SYMLINK p with
  | none => rw [hf] at h; cases h
  | some qn =>
    obtain ⟨q, n⟩ := qn
    rw [hf] at h
    cases hd : n.data with
    | dir =>
      simp only [hd, Except.ok.injEq] at h
      rw [← h]
      refine List.Nodup.map ?_ (childNames_nodup fs q hwf)
      intro a b hab
      simpa using hab
    | file c => simp [hd] at h
    | symlink t => simp [hd] at h
    | socket => simp [hd] at h
    | fifo => simp [hd] at h

/-- C9 witness: the sample tree's root listing is duplicate-free and agrees
across backends. -/
theorem C9_witness :
    WF sampleFS ∧
    localIterdir sampleFS [] = .ok [["a.txt"], ["b.txt"], ["sub"], ["lnk"], ["sock"]] ∧
    ([["a.txt"], ["b.txt"], ["sub"], ["lnk"], ["sock"]] : List Path).Nodup ∧
    containerIterdir sampleFS [] = .ok [["a.txt"], ["b.txt"], ["sub"], ["lnk"], ["sock"]] :=
  ⟨by decide, rfl,
    C9_iterdir_no_duplicates sampleFS [] [["a.txt"], ["b.txt"], ["sub"], ["lnk"], ["sock"]]
      (by decide) rfl⟩

/-- C1 counterexample: `write_bytes` requesting `group="alice"` without a
user — not a recursive glob — succeeds on the local backend but raises
`UnknownPrincipal` on the remote backend, so the two backends disagree on an
operation other than recursive glob. -/
theorem C1_counterexample :
    isRecGlobOp (.writeBytesQ ["f.bin"] [1] none none (some "alice")) = false ∧
    runContainer sampleWorld (.writeBytesQ ["f.bin"] [1] none none (some "alice"))
      = .error (.kind .UnknownPrincipal) ∧
    runContainer sampleWorld (.writeBytesQ ["f.bin"] [1] none none (some "alice"))
      ≠ runLocal sampleWorld (.writeBytesQ ["f.bin"] [1] none none (some "alice")) := by
  refine ⟨rfl, rfl, ?_⟩
  decide

/-- C1 (amended): for every world and every path-contract operation, the
remote backend yields exactly the local backend's result (value, error kind
and resulting filesystem) — except that a well-formed recursive (`**`) glob
is rejected remotely as `Unsupported`, and an operation requesting an owning
group without a user resolves ownership remotely to `UnknownPrincipal`
instead of applying the local group default. -/
theorem C1_backend_parity_amended (w : World) (op : Op) :
    (isRecGlobOp op = false → isGroupOnlyOp op = false →
      runContainer w op = runLocal w op) ∧
    (∀ p pattern, op = .globQ p pattern → isRecGlobOp op = true →
      runContainer w op = .error (.kind .Unsupported)) ∧
    (∀ g, containerOwnership w none (some g) = .error .UnknownPrincipal) := by
  refine ⟨parity_main w op, ?_, fun g => rfl⟩
  rintro p pattern rfl h
  exact recglob_unsupported w p pattern h

/-- C1 witness: concrete parity on a read, and the recursive-glob
exception, in the sample world. -/
theorem C1_witness :
    runContainer sampleWorld (.readBytesQ ["a.txt"])
      = runLocal sampleWorld (.readBytesQ ["a.txt"]) ∧
    runContainer sampleWorld (.globQ [] "**/*.txt") = .error (.kind .Unsupported) :=
  ⟨(C1_backend_parity_amended sampleWorld (.readBytesQ ["a.txt"])).1 rfl rfl,
    (C1_backend_parity_amended sampleWorld (.globQ [] "**/*.txt")).2.1 [] "**/*.txt" rfl
      (by decide)⟩

/-- The precondition under which a write can succeed: the path names a
non-root entry, its parent chain consists of plain existing directories, and
no directory sits at the target itself. -/
def validWriteTarget (fs : FS) (p : Path) : Bool :=
  match p.getLast? with
  | none => false
  | some name =>
    decide (parentCheck fs p = .ok (p.dropLast, name)) &&
      ((lookupSeg fs p).all (fun n => !(n.data == NodeData.dir)))

/-- C2: writing arbitrary bytes (NUL and non-UTF8 included) and reading them
back returns exactly the written bytes, on either backend. -/
theorem C2_roundtrip (b : Backend) (w : World) (p : Path) (content : List Nat)
    (h : validWriteTarget w.fs p = true) :
    ∃ fs', writeBytesB b w p content none none none = .ok fs' ∧
      readBytesB b fs' p = .ok content := by
  have hw : writeBytesB b w p content none none none
      = localWriteBytes w p content none none none := by
    cases b with
    | localB => rfl
    | containerB => exact writeBytes_parity w p content none none none (Or.inr rfl)
  have hr : ∀ fs', readBytesB b fs' p = localReadBytes fs' p := by
    cases b with
    | localB => intro fs'; rfl
    | containerB => intro fs'; exact readBytes_parity fs' p
  rw [hw]
  unfold validWriteTarget at h
  cases hl : p.getLast? with
  | none => rw [hl] at h; cases h
  | some name =>
    rw [hl] at h
    simp only [Bool.and_eq_true, decide_eq_true_eq] at h
    obtain ⟨hpc, htgt⟩ := h
    have hpne : p ≠ [] := getLast?_ne_nil hl
    have hdp : p.dropLast ++ [name] = p := dropLast_append_last hl
    unfold localWriteBytes
    rw [hpc]
    simp only [localOwnership]
    unfold writeEntry
    rw [hdp]
    have hwrite : ∀ fsres,
        fsres = insertNode w.fs p (mkFileNode content ((none : Option Nat).getD DEFAULT_WRITE_MODE)
          defaultUser defaultGroup) →
        localReadBytes fsres p = .ok content := by
      intro fsres hfs
      refine localReadBytes_of_file (n := mkFileNode content
        ((none : Option Nat).getD DEFAULT_WRITE_MODE) defaultUser defaultGroup) ?_ rfl
      rw [hfs]
      exact lookupSeg_insertNode w.fs p _ hpne
    cases hs : lookupSeg w.fs p with
    | none =>
      refine ⟨_, rfl, ?_⟩
      rw [hr]
      exact hwrite _ rfl
    | some n =>
      rw [hs] at htgt
      cases hd : n.data with
      | dir => simp [hd] at htgt
      | file c =>
        simp only [hd]
        refine ⟨_, rfl, ?_⟩
        rw [hr]
        exact hwrite _ rfl
      | symlink t =>
        simp only [hd]
        refine ⟨_, rfl, ?_⟩
        rw [hr]
        exact hwrite _ rfl
      | socket =>
        simp only [hd]
        refine ⟨_, rfl, ?_⟩
        rw [hr]
        exact hwrite _ rfl
      | fifo =>
        simp only [hd]
        refine ⟨_, rfl, ?_⟩
        rw [hr]
        exact hwrite _ rfl

/-- C2 witness: all 256 byte values round-trip through the remote backend in
the sample world. -/
theorem C2_witness :
    validWriteTarget sampleFS ["all.bin"] = true ∧
    ∃ fs', writeBytesB .containerB sampleWorld ["all.bin"] (List.range 256) none none none
        = .ok fs' ∧
      readBytesB .containerB fs' ["all.bin"] = .ok (List.range 256) :=
  ⟨by decide, C2_roundtrip .containerB sampleWorld ["all.bin"] (List.range 256) (by decide)⟩

/-! ## The write-if-needed helper's claims -/

/-- The write-if-needed helper behaves identically on both backends, since it
passes no ownership arguments. -/
theorem ensure_dispatch (b : Backend) (w : World) (p : Path) (content : List Nat) (mode : Nat) :
    ensureContents b w p content mode = ensureContents .localB w p content mode := by
  cases b with
  | localB => rfl
  | containerB =>
    unfold ensureContents
    simp only [readBytesB, statB, writeBytesB, readBytes_parity, stat_parity,
      writeBytes_parity w p content (some mode) none none (Or.inr rfl)]

def isRegularFile : NodeData → Bool
  | .file _ => true
  | _ => false

/-- The precondition for the write-if-needed claims: the path names a
non-root entry below a plain existing directory chain, and the target is
absent or a regular file. -/
def ensureTarget (fs : FS) (p : Path) : Bool :=
  match p.getLast? with
  | none => false
  | some name =>
    decide (parentCheck fs p = .ok (p.dropLast, name)) &&
      ((lookupSeg fs p).all (fun n => isRegularFile n.data))

theorem localReadBytes_of_missing {fs : FS} {p : Path} (h : lookupSeg fs p = none) :
    localReadBytes fs p = .error (.kind .NotFound) := by
  unfold localReadBytes pullCore
  rw [show MAX_SYMLINK = 39 + 1 from rfl, followNode_succ, h]
  rfl

theorem localWriteBytes_ok {w : World} {p : Path} {name : String} (content : List Nat)
    (mode : Option Nat) (hl : p.getLast? = some name)
    (hpc : parentCheck w.fs p = .ok (p.dropLast, name))
    (htgt : ∀ n, lookupSeg w.fs p = some n → n.data ≠ .dir) :
    localWriteBytes w p content mode none none
      = .ok (insertNode w.fs p
          (mkFileNode content (mode.getD DEFAULT_WRITE_MODE) defaultUser defaultGroup)) := by
  unfold localWriteBytes writeEntry
  rw [hpc]
  simp only [localOwnership]
  rw [dropLast_append_last hl]
  cases hs : lookupSeg w.fs p with
  | none => rfl
  | some n =>
    have hnd := htgt n hs
    cases hd : n.data with
    | dir => exact absurd hd hnd
    | file c => simp [hd]
    | symlink t => simp [hd]
    | socket => simp [hd]
    | fifo => simp [hd]

/-- A second invocation on an already-reconciled target reports no change. -/
theorem ensure_no_change {w : World} {p : Path} {n : Node} (content : List Nat) (mode : Nat)
    (hn : lookupSeg w.fs p = some n) (hd : n.data = .file content) (hm : n.meta.mode = mode) :
    ensureContents .localB w p content mode = .ok (false, w.fs) := by
  unfold ensureContents
  simp only [readBytesB, statB]
  rw [localReadBytes_of_file hn hd, localStat_of_file hn hd]
  dsimp only
  rw [if_pos ⟨rfl, by simp [infoOf, hm]⟩]

/-- C3 counterexample: on a target that already holds the desired content and
permissions, the helper reports "no change" and leaves the filesystem
untouched, on both backends — so two consecutive identical calls perform zero
underlying writes, not exactly one. -/
theorem C3_counterexample :
    ensureContents .localB sampleWorld ["a.txt"] [1, 2] DEFAULT_WRITE_MODE
      = .ok (false, sampleWorld.fs) ∧
    ensureContents .containerB sampleWorld ["a.txt"] [1, 2] DEFAULT_WRITE_MODE
      = .ok (false, sampleWorld.fs) := ⟨rfl, rfl⟩

/-- C3 (amended): on a target that is absent or a regular file, the helper
succeeds on either backend; it reports "no change" (`false`) exactly when the
target already holds the desired bytes and permission bits, in which case the
filesystem is untouched; otherwise it reports "changed" (`true`) after one
write; after any call the target holds exactly the desired bytes and
permissions, and a second identical call performs no further write. -/
theorem C3_ensure_contents_amended (b : Backend) (w : World) (p : Path)
    (content : List Nat) (mode : Nat) (h : ensureTarget w.fs p = true) :
    ∃ r : Bool × FS, ensureContents b w p content mode = .ok r ∧
      (r.1 = false ↔ ∃ n, lookupSeg w.fs p = some n ∧ n.data = .file content ∧
        n.meta.mode = mode) ∧
      (r.1 = false → r.2 = w.fs) ∧
      (∃ n', lookupSeg r.2 p = some n' ∧ n'.data = .file content ∧ n'.meta.mode = mode) ∧
      ensureContents b ⟨r.2, w.users, w.groups⟩ p content mode = .ok (false, r.2) := by
  simp only [ensure_dispatch b]
  unfold ensureTarget at h
  cases hl : p.getLast? with
  | none => rw [hl] at h; cases h
  | some name =>
    rw [hl] at h
    simp only [Bool.and_eq_true, decide_eq_true_eq] at h
    obtain ⟨hpc, htgt⟩ := h
    have hpne : p ≠ [] := getLast?_ne_nil hl
    have hnotdir : ∀ n, lookupSeg w.fs p = some n → n.data ≠ .dir := by
      intro n hn hd
      rw [hn] at htgt
      simp [Option.all, isRegularFile, hd] at htgt
    have hwriteok := localWriteBytes_ok content (some mode) hl hpc hnotdir
    cases hs : lookupSeg w.fs p with
    | none =>
      refine ⟨(true, insertNode w.fs p (mkFileNode content mode defaultUser defaultGroup)),
        ?_, ?_, ?_, ?_, ?_⟩
      · unfold ensureContents
        simp only [readBytesB]
        rw [localReadBytes_of_missing hs]
        simp only [writeBytesB]
        rw [hwriteok]
        rfl
      · simp [hs]
      · simp
      · exact ⟨_, lookupSeg_insertNode w.fs p _ hpne, rfl, rfl⟩
      · exact ensure_no_change content mode (lookupSeg_insertNode w.fs p _ hpne) rfl rfl
    | some n =>
      rw [hs] at htgt
      have hfile : ∃ c, n.data = .file c := by
        cases hd : n.data with
        | file c => exact ⟨c, rfl⟩
        | dir => simp [Option.all, isRegularFile, hd] at htgt
        | symlink t => simp [Option.all, isRegularFile, hd] at htgt
        | socket => simp [Option.all, isRegularFile, hd] at htgt
        | fifo => simp [Option.all, isRegularFile, hd] at htgt
      obtain ⟨c, hd⟩ := hfile
      by_cases hcm : c = content ∧ n.meta.mode = mode
      · refine ⟨(false, w.fs), ?_, ?_, ?_, ?_, ?_⟩
        · unfold ensureContents
          simp only [readBytesB, statB]
          rw [localReadBytes_of_file hs hd, localStat_of_file hs hd]
          dsimp only
          rw [if_pos ⟨hcm.1, by simp [infoOf, hcm.2]⟩]
        · simp only [true_iff]
          exact ⟨n, rfl, by rw [hd, hcm.1], hcm.2⟩
        · intro; rfl
        · exact ⟨n, hs, by rw [hd, hcm.1], hcm.2⟩
        · exact ensure_no_change content mode hs (by rw [hd, hcm.1]) hcm.2
      · refine ⟨(true, insertNode w.fs p (mkFileNode content mode defaultUser defaultGroup)),
          ?_, ?_, ?_, ?_, ?_⟩
        · unfold ensureContents
          simp only [readBytesB, statB]
          rw [localReadBytes_of_file hs hd, localStat_of_file hs hd]
          dsimp only
          rw [if_neg (by
            intro hcon
            refine hcm ⟨?_, ?_⟩
            · exact hcon.1
            · have := hcon.2
              simpa [infoOf] using this)]
          simp only [writeBytesB]
          rw [hwriteok]
          rfl
        · simp only [Bool.true_eq_false, false_iff]
          rintro ⟨n', hn', hd', hm'⟩
          obtain rfl : n = n' := Option.some.inj hn'
          rw [hd] at hd'
          exact hcm ⟨NodeData.file.inj hd', hm'⟩
        · simp
        · exact ⟨_, lookupSeg_insertNode w.fs p _ hpne, rfl, rfl⟩
        · exact ensure_no_change content mode (lookupSeg_insertNode w.fs p _ hpne) rfl rfl

/-- C3 witness: reconciling a file whose bytes and permissions differ in the
sample world reports "changed", leaves the desired state behind, and a second
call reports "no change". -/
theorem C3_witness :
    ensureTarget sampleFS ["b.txt"] = true ∧
    (∃ r : Bool × FS, ensureContents .containerB sampleWorld ["b.txt"] [7, 8] 0o600 = .ok r ∧
      (r.1 = false ↔ ∃ n, lookupSeg sampleFS ["b.txt"] = some n ∧ n.data = .file [7, 8] ∧
        n.meta.mode = 0o600) ∧
      (r.1 = false → r.2 = sampleFS) ∧
      (∃ n', lookupSeg r.2 ["b.txt"] = some n' ∧ n'.data = .file [7, 8] ∧
        n'.meta.mode = 0o600) ∧
      ensureContents .containerB ⟨r.2, sampleWorld.users, sampleWorld.groups⟩ ["b.txt"]
        [7, 8] 0o600 = .ok (false, r.2)) :=
  ⟨by decide, C3_ensure_contents_amended .containerB sampleWorld ["b.txt"] [7, 8] 0o600
    (by decide)⟩

/-! ## Ownership and parent-validation claims -/

/-- C4 counterexample: a remote `write_bytes` requesting a group without a
user, whose target's parent does not exist, fails `NotFound` — not
`UnknownPrincipal` — because the parent is validated before ownership is
resolved. -/
theorem C4_counterexample :
    containerWriteBytes sampleWorld ["nodir", "f.bin"] [1] none none (some "alice")
      = .error (.kind .NotFound) ∧
    containerWriteBytes sampleWorld ["nodir", "f.bin"] [1] none none (some "alice")
      ≠ .error (.kind .UnknownPrincipal) := ⟨rfl, by decide⟩

/-- C4 (amended): on the remote backend a group-without-user request raises
`UnknownPrincipal` rather than silently defaulting the owner — always for
`mkdir`, and for `write_bytes`/`write_text` whenever the parent validation
that precedes ownership resolution passes. -/
theorem C4_group_only_amended (w : World) :
    (∀ p parents existOk g, containerMkdir w p parents existOk none (some g)
      = .error (.kind .UnknownPrincipal)) ∧
    (∀ p name content mode g i, p.getLast? = some name →
      pebbleStat w.fs p.dropLast true = .ok i → i.kind = .directory →
      containerWriteBytes w p content mode none (some g)
        = .error (.kind .UnknownPrincipal)) ∧
    (∀ p name text mode g i, p.getLast? = some name →
      pebbleStat w.fs p.dropLast true = .ok i → i.kind = .directory →
      containerWriteText w p text mode none (some g)
        = .error (.kind .UnknownPrincipal)) := by
  refine ⟨fun p parents existOk g => rfl, ?_, ?_⟩
  · intro p name content mode g i hl hstat hkind
    unfold containerWriteBytes
    rw [hl]
    dsimp only
    rw [hstat]
    dsimp only
    rw [if_neg (by simp [hkind])]
    rfl
  · intro p name text mode g i hl hstat hkind
    unfold containerWriteText
    rw [hl]
    dsimp only
    rw [hstat]
    dsimp only
    rw [if_neg (by simp [hkind])]
    rfl

/-- C4 witness: group-only `mkdir` and `write_bytes` under the (existing)
root directory of the sample world raise `UnknownPrincipal`. -/
theorem C4_witness :
    containerMkdir sampleWorld ["newdir"] false false none (some "alice")
      = .error (.kind .UnknownPrincipal) ∧
    containerWriteBytes sampleWorld ["f.bin"] [1] none none (some "alice")
      = .error (.kind .UnknownPrincipal) :=
  ⟨(C4_group_only_amended sampleWorld).1 ["newdir"] false false "alice",
    (C4_group_only_amended sampleWorld).2.1 ["f.bin"] "f.bin" [1] none "alice"
      (infoOf rootNode) rfl rfl rfl⟩

/-- C5: every remote `write_bytes`/`write_text` validates the target's parent
before any push — a missing parent fails `NotFound` and a non-directory
parent fails `NotADirectory` — with exactly the kinds the local backend
produces. -/
theorem C5_write_parent_validation (w : World) (p : Path) (name : String)
    (content : List Nat) (text : List Char) (mode : Option Nat) (user group : Option String)
    (hl : p.getLast? = some name) :
    (followNode w.fs MAX_SYMLINK p.dropLast = none →
      containerWriteBytes w p content mode user group = .error (.kind .NotFound) ∧
      containerWriteText w p text mode user group = .error (.kind .NotFound) ∧
      localWriteBytes w p content mode user group = .error (.kind .NotFound) ∧
      localWriteText w p text mode user group = .error (.kind .NotFound)) ∧
    (∀ q n, followNode w.fs MAX_SYMLINK p.dropLast = some (q, n) → n.data ≠ .dir →
      containerWriteBytes w p content mode user group = .error (.kind .NotADirectory) ∧
      containerWriteText w p text mode user group = .error (.kind .NotADirectory) ∧
      localWriteBytes w p content mode user group = .error (.kind .NotADirectory) ∧
      localWriteText w p text mode user group = .error (.kind .NotADirectory)) := by
  constructor
  · intro hf
    refine ⟨?_, ?_, ?_, ?_⟩ <;>
      simp [containerWriteBytes, containerWriteText, localWriteBytes, localWriteText,
        parentCheck, pebbleStat, hl, hf, classify_faultOf, errnoKind]
  · intro q n hf hnd
    cases hd : n.data with
    | dir => exact absurd hd hnd
    | file c =>
      refine ⟨?_, ?_, ?_, ?_⟩ <;>
        simp [containerWriteBytes, containerWriteText, localWriteBytes, localWriteText,
          parentCheck, pebbleStat, hl, hf, hd, infoOf, kindOf, errnoKind]
    | symlink t =>
      refine ⟨?_, ?_, ?_, ?_⟩ <;>
        simp [containerWriteBytes, containerWriteText, localWriteBytes, localWriteText,
          parentCheck, pebbleStat, hl, hf, hd, infoOf, kindOf, errnoKind]
    | socket =>
      refine ⟨?_, ?_, ?_, ?_⟩ <;>
        simp [containerWriteBytes, containerWriteText, localWriteBytes, localWriteText,
          parentCheck, pebbleStat, hl, hf, hd, infoOf, kindOf, errnoKind]
    | fifo =>
      refine ⟨?_, ?_, ?_, ?_⟩ <;>
        simp [containerWriteBytes, containerWriteText, localWriteBytes, localWriteText,
          parentCheck, pebbleStat, hl, hf, hd, infoOf, kindOf, errnoKind]

/-- C5 witness: in the sample world, writing under a missing parent fails
`NotFound` and writing under a regular file fails `NotADirectory`, on the
remote backend. -/
theorem C5_witness :
    containerWriteBytes sampleWorld ["nodir", "f"] [1] none none none
      = .error (.kind .NotFound) ∧
    containerWriteText sampleWorld ["a.txt", "f"] ['h'] none none none
      = .error (.kind .NotADirectory) :=
  ⟨((C5_write_parent_validation sampleWorld ["nodir", "f"] "f" [1] ['h'] none none none
      rfl).1 (by decide)).1,
    (((C5_write_parent_validation sampleWorld ["a.txt", "f"] "f" [1] ['h'] none none none
      rfl).2) ["a.txt"] ⟨.file [1, 2], sampleMeta⟩ (by decide) (by decide)).2.1⟩

/-- C6: `rmdir` removes only empty directories — on a regular file and on a
symlink (never followed, so also on a symlink-to-directory) it fails
`NotADirectory`, and on a directory with children it fails `NotEmpty`, on
both backends. -/
theorem C6_rmdir_guards (fs : FS) (p : Path) (name : String) (n : Node)
    (hl : p.getLast? = some name) (hs : lookupSeg fs p = some n) :
    (∀ c, n.data = .file c →
      localRmdir fs p = .error (.kind .NotADirectory) ∧
      containerRmdir fs p = .error (.kind .NotADirectory)) ∧
    (∀ t, n.data = .symlink t →
      localRmdir fs p = .error (.kind .NotADirectory) ∧
      containerRmdir fs p = .error (.kind .NotADirectory)) ∧
    (n.data = .dir → childNames fs p ≠ [] →
      localRmdir fs p = .error (.kind .NotEmpty) ∧
      containerRmdir fs p = .error (.kind .NotEmpty)) := by
  have hpar := rmdir_parity fs p
  refine ⟨?_, ?_, ?_⟩
  · intro c hd
    have hlocal : localRmdir fs p = .error (.kind .NotADirectory) := by
      simp [localRmdir, hl, hs, hd, errnoKind]
    exact ⟨hlocal, by rw [hpar]; exact hlocal⟩
  · intro t hd
    have hlocal : localRmdir fs p = .error (.kind .NotADirectory) := by
      simp [localRmdir, hl, hs, hd, errnoKind]
    exact ⟨hlocal, by rw [hpar]; exact hlocal⟩
  · intro hd hne
    have hlocal : localRmdir fs p = .error (.kind .NotEmpty) := by
      cases hc : childNames fs p with
      | nil => exact absurd hc hne
      | cons a as => simp [localRmdir, removeCore, hl, hs, hd, hc, errnoKind]
    exact ⟨hlocal, by rw [hpar]; exact hlocal⟩

/-- C6 witness: in the sample tree, `rmdir` on the regular file, on the
symlink-to-directory and on the non-empty subdirectory fails with
`NotADirectory`, `NotADirectory` and `NotEmpty` respectively, on both
backends. -/
theorem C6_witness :
    (localRmdir sampleFS ["a.txt"] = .error (.kind .NotADirectory) ∧
      containerRmdir sampleFS ["a.txt"] = .error (.kind .NotADirectory)) ∧
    (localRmdir sampleFS ["lnk"] = .error (.kind .NotADirectory) ∧
      containerRmdir sampleFS ["lnk"] = .error (.kind .NotADirectory)) ∧
    (localRmdir sampleFS ["sub"] = .error (.kind .NotEmpty) ∧
      containerRmdir sampleFS ["sub"] = .error (.kind .NotEmpty)) :=
  ⟨(C6_rmdir_guards sampleFS ["a.txt"] "a.txt" ⟨.file [1, 2], sampleMeta⟩ rfl rfl).1
      [1, 2] rfl,
    (C6_rmdir_guards sampleFS ["lnk"] "lnk" ⟨.symlink ["sub"], sampleMeta⟩ rfl rfl).2.1
      ["sub"] rfl,
    (C6_rmdir_guards sampleFS ["sub"] "sub"
        ⟨.dir, ⟨DEFAULT_MKDIR_MODE, "root", "root", 0⟩⟩ rfl rfl).2.2 rfl (by decide)⟩

/-! ## Glob claims -/

/-- C7 counterexample: the pattern `***/**` contains a recursive `**`
component, yet the local backend rejects it with a format error instead of
accepting and evaluating it, and the remote backend also reports the format
error, not `Unsupported` — degenerate-pattern validation runs first. -/
theorem C7_counterexample :
    hasRecComponent (patternComps "***/**") = true ∧
    localGlob sampleFS [] "***/**" = .error .format ∧
    containerGlob sampleFS [] "***/**" = .error .format := ⟨rfl, rfl, rfl⟩

/-- C7 (amended): for every glob pattern that passes degenerate-pattern
validation and contains a recursive `**` component, the local backend
accepts the pattern and evaluates it through the engine, while the remote
backend raises `Unsupported` instead of matching. -/
theorem C7_rglob_amended (fs : FS) (start : Path) (pattern : String) (comps : List String)
    (hv : validatePattern pattern = .ok comps) (hrec : hasRecComponent comps = true) :
    localGlob fs start pattern = .ok (globEngine fs start comps) ∧
    containerGlob fs start pattern = .error (.kind .Unsupported) := by
  unfold localGlob containerGlob
  rw [hv]
  simp [hrec]

/-- C7 witness: `**/*.txt` evaluates locally and raises `Unsupported`
remotely in the sample world. -/
theorem C7_witness :
    localGlob sampleFS [] "**/*.txt" = .ok (globEngine sampleFS [] ["**", "*.txt"]) ∧
    containerGlob sampleFS [] "**/*.txt" = .error (.kind .Unsupported) :=
  C7_rglob_amended sampleFS [] "**/*.txt" ["**", "*.txt"] (by decide) (by decide)

/-- C8 counterexample: the absolute pattern `/` is rejected by both backends
as `Unsupported` (`NotImplementedError`), not with the format error
(`ValueError`) the claim asserts. -/
theorem C8_counterexample :
    localGlob sampleFS [] "/" = .error (.kind .Unsupported) ∧
    containerGlob sampleFS [] "/" = .error (.kind .Unsupported) ∧
    containerGlob sampleFS [] "/" ≠ .error .format := ⟨rfl, rfl, by decide⟩

/-- C8 (amended): glob rejects the empty pattern, the bare `.` pattern, and
any pattern with a component containing more than two consecutive `*` with a
format error (`ValueError`), while an absolute pattern is rejected as
`Unsupported` (`NotImplementedError`) — in each case identically on both
backends. -/
theorem C8_glob_validation_amended (fs : FS) (start : Path) (pattern : String) :
    (pattern = "" ∨ pattern = "." →
      localGlob fs start pattern = .error .format ∧
      containerGlob fs start pattern = .error .format) ∧
    (isAbsolutePattern pattern = true →
      localGlob fs start pattern = .error (.kind .Unsupported) ∧
      containerGlob fs start pattern = .error (.kind .Unsupported)) ∧
    (isAbsolutePattern pattern = false →
      (patternComps pattern).any (fun c => containsStars 3 c.data) = true →
      localGlob fs start pattern = .error .format ∧
      containerGlob fs start pattern = .error .format) := by
  refine ⟨?_, ?_, ?_⟩
  · rintro (rfl | rfl) <;> exact ⟨rfl, rfl⟩
  · intro habs
    have hne : pattern ≠ "" := by
      intro h
      rw [h] at habs
      simp [isAbsolutePattern] at habs
    simp only [localGlob, containerGlob, validatePattern]
    rw [if_neg hne, if_pos habs]
    exact ⟨rfl, rfl⟩
  · intro habs h3
    have hne : pattern ≠ "" := by
      rintro rfl
      exact absurd h3 (by decide)
    have hnd : pattern ≠ "." := by
      rintro rfl
      exact absurd h3 (by decide)
    have hbad : (patternComps pattern).any badComponent = true := by
      rw [List.any_eq_true] at h3 ⊢
      obtain ⟨c, hc, h3c⟩ := h3
      exact ⟨c, hc, by simp [badComponent, h3c]⟩
    simp only [localGlob, containerGlob, validatePattern]
    rw [if_neg hne, if_neg (by rw [habs]; simp), if_neg hnd]
    simp only [hbad]
    exact ⟨rfl, rfl⟩

/-- C8 witness: the empty pattern, `.`, and `***/a` are rejected with format
errors and `/x` with `Unsupported`, identically on both backends, in the
sample world. -/
theorem C8_witness :
    (localGlob sampleFS [] "" = .error .format ∧
      containerGlob sampleFS [] "" = .error .format) ∧
    (localGlob sampleFS [] "." = .error .format ∧
      containerGlob sampleFS [] "." = .error .format) ∧
    (localGlob sampleFS [] "***/a" = .error .format ∧
      containerGlob sampleFS [] "***/a" = .error .format) ∧
    (localGlob sampleFS [] "/x" = .error (.kind .Unsupported) ∧
      containerGlob sampleFS [] "/x" = .error (.kind .Unsupported)) :=
  ⟨(C8_glob_validation_amended sampleFS [] "").1 (Or.inl rfl),
    (C8_glob_validation_amended sampleFS [] ".").1 (Or.inr rfl),
    (C8_glob_validation_amended sampleFS [] "***/a").2.2 (by decide) (by decide),
    (C8_glob_validation_amended sampleFS [] "/x").2.1 (by decide)⟩

/-! ## Failed group-only writes leave the filesystem unchanged -/

/-- The filesystem after attempting a remote-backend operation; a failed
operation leaves it unchanged. -/
def fsAfterContainer (w : World) (op : Op) : FS :=
  match runContainer w op with
  | .ok (_, fs') => fs'
  | .error _ => w.fs

/-- A remote write requesting a group without a user always fails, whatever
the state of the tree. -/
theorem containerWrite_groupOnly_fails (w : World) (p : Path) (content : List Nat)
    (text : List Char) (mode : Option Nat) (g : String) :
    (∃ f, containerWriteBytes w p content mode none (some g) = .error f) ∧
    (∃ f, containerWriteText w p text mode none (some g) = .error f) := by
  constructor
  · unfold containerWriteBytes
    cases hl : p.getLast? with
    | none => exact ⟨_, rfl⟩
    | some name =>
      dsimp only
      cases hstat : pebbleStat w.fs p.dropLast true with
      | error msg => exact ⟨_, rfl⟩
      | ok i =>
        dsimp only
        by_cases hk : i.kind ≠ FKind.directory
        · rw [if_pos hk]; exact ⟨_, rfl⟩
        · rw [if_neg hk]; exact ⟨_, rfl⟩
  · unfold containerWriteText
    cases hl : p.getLast? with
    | none => exact ⟨_, rfl⟩
    | some name =>
      dsimp only
      cases hstat : pebbleStat w.fs p.dropLast true with
      | error msg => exact ⟨_, rfl⟩
      | ok i =>
        dsimp only
        by_cases hk : i.kind ≠ FKind.directory
        · rw [if_pos hk]; exact ⟨_, rfl⟩
        · rw [if_neg hk]; exact ⟨_, rfl⟩

/-- C10: a remote `write_bytes`/`write_text` requesting a group without a
user fails, and the failure creates nothing: the filesystem is unchanged, so
a target absent before the call is still absent afterwards. -/
theorem C10_failed_write_no_creation (w : World) (p : Path) (content : List Nat)
    (text : List Char) (mode : Option Nat) (g : String) :
    (∃ f, runContainer w (.writeBytesQ p content mode none (some g)) = .error f) ∧
    fsAfterContainer w (.writeBytesQ p content mode none (some g)) = w.fs ∧
    (∃ f, runContainer w (.writeTextQ p text mode none (some g)) = .error f) ∧
    fsAfterContainer w (.writeTextQ p text mode none (some g)) = w.fs ∧
    (containerExists w.fs p = false →
      containerExists (fsAfterContainer w (.writeBytesQ p content mode none (some g))) p
        = false) := by
  obtain ⟨⟨f1, h1⟩, ⟨f2, h2⟩⟩ := containerWrite_groupOnly_fails w p content text mode g
  have hr1 : runContainer w (.writeBytesQ p content mode none (some g)) = .error f1 := by
    simp [runContainer, h1, Except.map]
  have hr2 : runContainer w (.writeTextQ p text mode none (some g)) = .error f2 := by
    simp [runContainer, h2, Except.map]
  have hfs1 : fsAfterContainer w (.writeBytesQ p content mode none (some g)) = w.fs := by
    unfold fsAfterContainer
    rw [hr1]
  refine ⟨⟨f1, hr1⟩, hfs1, ⟨f2, hr2⟩, ?_, ?_⟩
  · unfold fsAfterContainer
    rw [hr2]
  · intro hex
    rw [hfs1]
    exact hex

/-- C10 witness: in the sample world a group-only write to a fresh path
fails and the path still does not exist afterwards. -/
theorem C10_witness :
    (∃ f, runContainer sampleWorld (.writeBytesQ ["new.bin"] [1] none none (some "alice"))
      = .error f) ∧
    fsAfterContainer sampleWorld (.writeBytesQ ["new.bin"] [1] none none (some "alice"))
      = sampleFS ∧
    containerExists sampleFS ["new.bin"] = false ∧
    containerExists (fsAfterContainer sampleWorld
      (.writeBytesQ ["new.bin"] [1] none none (some "alice"))) ["new.bin"] = false := by
  obtain ⟨he, hfs, -, -, himp⟩ :=
    C10_failed_write_no_creation sampleWorld ["new.bin"] [1] ['h'] none "alice"
  exact ⟨he, hfs, rfl, himp rfl⟩

end Pathops
